import Mathlib

/-! Verification development for a pure encoder-decoder transformer
(token embedding, sinusoidal positional encoding, multi-head attention,
encoder/decoder stacks, tied output projection, save/load persistence),
translated from `src/transformer.py`.

Modelling conventions:
* Real-valued tensors are index functions together with explicit dimension
  fields (`Tensor2/3/4`); integer tensors (token ids, 0/1 masks) are `NTensor2/3`.
* All semantics is evaluation-mode (deterministic): `nn.Dropout` is the
  identity in evaluation mode, so `dropoutEval` is the identity function.
* `masked_fill(mask == 0, -inf)` followed by `softmax` is embedded as a masked
  softmax in which a masked entry contributes `exp (-inf) = 0` to both the
  numerator and the denominator (division by zero yields 0 in Lean, matching
  the two runs of a noninterference comparison pointwise).
* Fallible construction / shape-checked operations return `Except`.
-/

noncomputable section

namespace VT

/-- Rank-2 real tensor: dimensions plus an entry function. -/
structure Tensor2 where
  d0 : Nat
  d1 : Nat
  ent : Nat → Nat → ℝ

/-- Rank-3 real tensor. -/
structure Tensor3 where
  d0 : Nat
  d1 : Nat
  d2 : Nat
  ent : Nat → Nat → Nat → ℝ

/-- Rank-4 real tensor. -/
structure Tensor4 where
  d0 : Nat
  d1 : Nat
  d2 : Nat
  d3 : Nat
  ent : Nat → Nat → Nat → Nat → ℝ

/-- Rank-2 integer tensor (token ids, padding masks, the uint8 causal mask). -/
structure NTensor2 where
  d0 : Nat
  d1 : Nat
  ent : Nat → Nat → Nat

/-- Rank-3 integer tensor (masks after reshaping to their broadcast form). -/
structure NTensor3 where
  d0 : Nat
  d1 : Nat
  d2 : Nat
  ent : Nat → Nat → Nat → Nat

/-- The `TransformerConfig` dataclass with its default values. -/
structure TransformerConfig where
  vocab_size : Nat := 8192
  n_encoder_layers : Nat := 6
  n_decoder_layers : Nat := 6
  n_encoder_heads : Nat := 8
  n_decoder_heads : Nat := 8
  embed_size : Nat := 512
  d_ff : Nat := 2048
  max_len : Nat := 4096
  tie_embeddings : Bool := true
  post_ln : Bool := true
  use_additional_dropout : Bool := false
  xavier_initialization : Bool := false
deriving DecidableEq

/-- `torch.ones(n, m)` cast to the integer entries we use for masks. -/
def onesN (n m : Nat) : NTensor2 := ⟨n, m, fun _ _ => 1⟩

/-- `torch.tril(x, diagonal=0)`: keep entry `(i, j)` iff `j ≤ i`. -/
def tril (x : NTensor2) : NTensor2 :=
  ⟨x.d0, x.d1, fun i j => if j ≤ i then x.ent i j else 0⟩

/-- `create_causal_mask(seq_len)`:
`torch.tril(torch.ones(seq_len, seq_len), diagonal=0).type(torch.uint8)`. -/
def create_causal_mask (seq_len : Nat) : NTensor2 :=
  tril (onesN seq_len seq_len)

/-- `.unsqueeze(0)` on a rank-2 mask, as done in `Decoder.forward`. -/
def unsqueeze0 (m : NTensor2) : NTensor3 :=
  ⟨1, m.d0, m.d1, fun _ i j => m.ent i j⟩

/-- `src_mask[:, torch.newaxis]`: reshape `(B, Ls)` to `(B, 1, Ls)`,
as done in `Transformer.encode`. -/
def pad3 (m : NTensor2) : NTensor3 :=
  ⟨m.d0, 1, m.d1, fun b _ j => m.ent b j⟩

/-- Errors raised while running `Transformer.__init__`:
`shapeMismatch` is the RuntimeError of the odd-width cosine slice assignment in
`positional_encoding`, `assertionFailed` is `assert embed_size % n_heads == 0`,
and `zeroDivision` is Python's ZeroDivisionError of `embed_size % 0`. -/
inductive InitError where
  | shapeMismatch
  | assertionFailed
  | zeroDivision
deriving DecidableEq

/-- Runtime shape errors surfaced by `encode`/`decode`. -/
inductive ShapeError where
  | broadcastMismatch
deriving DecidableEq

/-- The `div_term` value paired with even column `c`:
`exp(-log(10000) * c / embed_size)` (`c` ranges over `arange(0, E, 2)`). -/
def posDivTerm (embed_size c : Nat) : ℝ :=
  Real.exp (-(Real.log 10000) * c / embed_size)

/-- The value stored at `(p, e)` of the positional table when the assignments
succeed: even columns `2i` hold `sin(p * div_term i)` and odd columns `2i + 1`
hold `cos(p * div_term i)` (the same `div_term` entry, at column `2i + 1 - 1`). -/
def posTable (seq_len embed_size : Nat) : Tensor2 :=
  ⟨seq_len, embed_size, fun p e =>
    if e % 2 = 0 then Real.sin (p * posDivTerm embed_size e)
    else Real.cos (p * posDivTerm embed_size (e - 1))⟩

/-- Whether the slice assignment `pos_encoding[:, 1::2] = torch.cos(...)`
succeeds. The destination slice has `embed_size / 2` columns while the cosine
block has `(embed_size + 1) / 2` columns (the width of `arange(0, E, 2)`); a
source is copied iff it broadcasts to the destination, i.e. the widths are
equal or the source width is 1. (The sine assignment always has equal widths.) -/
def cosSliceOk (embed_size : Nat) : Prop :=
  (embed_size + 1) / 2 = embed_size / 2 ∨ (embed_size + 1) / 2 = 1

instance (embed_size : Nat) : Decidable (cosSliceOk embed_size) := by
  unfold cosSliceOk
  infer_instance

/-- `positional_encoding(seq_len, embed_size)`: build the sinusoidal table,
raising on the mismatched cosine slice assignment (odd `embed_size ≥ 3`). -/
def positional_encoding (seq_len embed_size : Nat) : Except InitError Tensor2 :=
  if cosSliceOk embed_size then .ok (posTable seq_len embed_size)
  else .error .shapeMismatch

/-- The fallible part of `MultiHeadAttention.__init__`:
`assert embed_size % n_heads == 0` (where Python's `%` raises on a zero
divisor). -/
def mhaInitCheck (n_heads embed_size : Nat) : Except InitError Unit :=
  if n_heads = 0 then .error .zeroDivision
  else if embed_size % n_heads = 0 then .ok ()
  else .error .assertionFailed

/-- Constructing `n_layers` identical layers runs the layer constructor (and
hence its `MultiHeadAttention` assert) once per layer; zero layers run none. -/
def layerStackCheck (n_layers : Nat) (chk : Except InitError Unit) :
    Except InitError Unit :=
  match n_layers with
  | 0 => .ok ()
  | Nat.succ k =>
    match chk with
    | .error e => .error e
    | .ok _ => layerStackCheck k chk

/-- Run two construction-time checks in order, keeping the first error. -/
def seqChecks (a b : Except InitError Unit) : Except InitError Unit :=
  match a with
  | .error e => .error e
  | .ok _ => b

/-- `nn.init.xavier_uniform_` on a 2-D `(dOut, dIn)` weight: it computes
`gain * sqrt(2.0 / float(fan_in + fan_out))` with `fan_in = dIn` and
`fan_out = dOut` and has no zero-element guard, so it raises
ZeroDivisionError exactly when `dOut + dIn = 0`. -/
def xavierLinear (dOut dIn : Nat) : Except InitError Unit :=
  if dOut + dIn = 0 then .error .zeroDivision else .ok ()

/-- The xavier pass over one `MultiHeadAttention`: the q/k/v/proj weights are
all `(embed_size, embed_size)`; their biases are 1-D and skipped. -/
def xavierAttention (embed_size : Nat) : Except InitError Unit :=
  seqChecks (xavierLinear embed_size embed_size)
    (seqChecks (xavierLinear embed_size embed_size)
      (seqChecks (xavierLinear embed_size embed_size)
        (xavierLinear embed_size embed_size)))

/-- The xavier pass over one `FeedForward`: weights `(d_ff, embed_size)` and
`(embed_size, d_ff)`. -/
def xavierFeedForward (embed_size d_ff : Nat) : Except InitError Unit :=
  seqChecks (xavierLinear d_ff embed_size) (xavierLinear embed_size d_ff)

/-- The xavier pass over one `EncoderLayer` (`ff` then `mha`, registration
order; LayerNorm parameters are 1-D and skipped). -/
def xavierEncoderLayerCheck (c : TransformerConfig) : Except InitError Unit :=
  seqChecks (xavierFeedForward c.embed_size c.d_ff) (xavierAttention c.embed_size)

/-- The xavier pass over one `DecoderLayer` (`ff`, `mha`, `mmha`). -/
def xavierDecoderLayerCheck (c : TransformerConfig) : Except InitError Unit :=
  seqChecks (xavierFeedForward c.embed_size c.d_ff)
    (seqChecks (xavierAttention c.embed_size) (xavierAttention c.embed_size))

/-- The fallible part of `_init_params`, run when
`config.xavier_initialization` is set: `xavier_uniform_` is applied to every
parameter with more than one dimension — each layer's feed-forward and
attention projection weights, then the `(vocab_size, embed_size)` embedding
and output-projection weights. Every failure is the same ZeroDivisionError,
so the exact iteration order is immaterial; with tied embeddings the shared
weight is visited once instead of twice, with the same outcome. -/
def initParamsCheck (c : TransformerConfig) : Except InitError Unit :=
  if c.xavier_initialization then
    seqChecks (layerStackCheck c.n_encoder_layers (xavierEncoderLayerCheck c))
      (seqChecks (layerStackCheck c.n_decoder_layers (xavierDecoderLayerCheck c))
        (seqChecks (xavierLinear c.vocab_size c.embed_size)
          (xavierLinear c.vocab_size c.embed_size)))
  else .ok ()

/-- The fallible skeleton of `Transformer.__init__`, in source order:
the positional table is built first, then the encoder layers (one
`MultiHeadAttention` assert each), then the decoder layers, and finally —
after the embedding/projection layers, which cannot fail to construct — the
`_init_params` xavier pass when it is enabled. -/
def initChecks (c : TransformerConfig) : Except InitError Unit :=
  match positional_encoding c.max_len c.embed_size with
  | .error e => .error e
  | .ok _ =>
    match layerStackCheck c.n_encoder_layers
        (mhaInitCheck c.n_encoder_heads c.embed_size) with
    | .error e => .error e
    | .ok _ =>
      match layerStackCheck c.n_decoder_layers
          (mhaInitCheck c.n_decoder_heads c.embed_size) with
      | .error e => .error e
      | .ok _ => initParamsCheck c

/-- `nn.Linear(inF, outF)`: weight of shape `(outF, inF)`, bias of shape
`(outF)`; `y_o = Σ_j x_j * weight[o, j] + bias[o]`. -/
structure Linear where
  inF : Nat
  outF : Nat
  weight : Nat → Nat → ℝ
  bias : Nat → ℝ

/-- `nn.LayerNorm(dim)` parameters (elementwise affine weight and bias). -/
structure LayerNormP where
  dim : Nat
  weight : Nat → ℝ
  bias : Nat → ℝ

/-- `nn.Embedding(num_embeddings, embedding_dim)`. -/
structure EmbeddingP where
  num_embeddings : Nat
  embedding_dim : Nat
  weight : Nat → Nat → ℝ

/-- The tensor content of a `MultiHeadAttention` module as it appears in a
state dict: the four projection layers. -/
structure MHASD where
  q_weights : Linear
  k_weights : Linear
  v_weights : Linear
  proj : Linear

/-- A constructed `MultiHeadAttention` module: head bookkeeping fixed at
construction (`head_dim = embed_size / n_heads`) plus the four projections. -/
structure MHAP where
  n_heads : Nat
  embed_size : Nat
  head_dim : Nat
  q_weights : Linear
  k_weights : Linear
  v_weights : Linear
  proj : Linear

/-- `FeedForward`: `Linear(d_out, d_ff) → ReLU → Dropout → Linear(d_ff, d_out)`
(`lin1` is `ff.0`, `lin2` is `ff.3`). -/
structure FeedForwardP where
  lin1 : Linear
  lin2 : Linear

/-- Tensor content of an `EncoderLayer` in a state dict. -/
structure EncoderLayerSD where
  ff : FeedForwardP
  mha : MHASD
  ln1 : LayerNormP
  ln2 : LayerNormP

/-- A constructed `EncoderLayer` (tensors plus the `post_ln` flag, which is a
plain attribute, not a parameter). -/
structure EncoderLayerP where
  ff : FeedForwardP
  mha : MHAP
  ln1 : LayerNormP
  ln2 : LayerNormP
  post_ln : Bool

/-- Tensor content of a `DecoderLayer` in a state dict (`mmha` is the masked
self-attention, `mha` the cross-attention). -/
structure DecoderLayerSD where
  ff : FeedForwardP
  mha : MHASD
  mmha : MHASD
  ln1 : LayerNormP
  ln2 : LayerNormP
  ln3 : LayerNormP

/-- A constructed `DecoderLayer`. -/
structure DecoderLayerP where
  ff : FeedForwardP
  mha : MHAP
  mmha : MHAP
  ln1 : LayerNormP
  ln2 : LayerNormP
  ln3 : LayerNormP
  post_ln : Bool

/-- A constructed `Encoder`: stacked layers plus the optional final layer norm
(present exactly in pre-norm mode). -/
structure EncoderP where
  encoder_layers : List EncoderLayerP
  final_ln : Option LayerNormP

/-- Tensor content of an `Encoder` in a state dict. -/
structure EncoderSD where
  layers : List EncoderLayerSD
  final_ln : Option LayerNormP

/-- A constructed `Decoder`. -/
structure DecoderP where
  decoder_layers : List DecoderLayerP
  final_ln : Option LayerNormP

/-- Tensor content of a `Decoder` in a state dict. -/
structure DecoderSD where
  layers : List DecoderLayerSD
  final_ln : Option LayerNormP

/-- A constructed `Transformer` module. `pos_enc` is a plain attribute (not a
registered buffer), so it is not part of the state dict; `sqrt_dmodel` is the
scalar `config.embed_size ** 0.5`. -/
structure Transformer where
  config : TransformerConfig
  pos_enc : Tensor2
  encoder : EncoderP
  decoder : DecoderP
  sqrt_dmodel : ℝ
  embeddings : EmbeddingP
  fc : Linear

/-- `Transformer.state_dict()`: every registered parameter, structured by
module (keys are structural, so we keep the module tree shape). -/
structure StateDict where
  embeddings : EmbeddingP
  fc : Linear
  encoder : EncoderSD
  decoder : DecoderSD

def mhaSD (p : MHAP) : MHASD :=
  ⟨p.q_weights, p.k_weights, p.v_weights, p.proj⟩

def encLayerSD (L : EncoderLayerP) : EncoderLayerSD :=
  ⟨L.ff, mhaSD L.mha, L.ln1, L.ln2⟩

def decLayerSD (L : DecoderLayerP) : DecoderLayerSD :=
  ⟨L.ff, mhaSD L.mha, mhaSD L.mmha, L.ln1, L.ln2, L.ln3⟩

def encoderSD (e : EncoderP) : EncoderSD :=
  ⟨e.encoder_layers.map encLayerSD, e.final_ln⟩

def decoderSD (d : DecoderP) : DecoderSD :=
  ⟨d.decoder_layers.map decLayerSD, d.final_ln⟩

def stateDict (m : Transformer) : StateDict :=
  ⟨m.embeddings, m.fc, encoderSD m.encoder, decoderSD m.decoder⟩

/-- `load_state_dict` copies saved tensors into a constructed module, keeping
every non-tensor attribute (head counts, flags) of the constructed module. -/
def mhaLoad (base : MHAP) (sd : MHASD) : MHAP :=
  { base with
    q_weights := sd.q_weights
    k_weights := sd.k_weights
    v_weights := sd.v_weights
    proj := sd.proj }

def encLayerLoad (base : EncoderLayerP) (sd : EncoderLayerSD) : EncoderLayerP :=
  { base with ff := sd.ff, mha := mhaLoad base.mha sd.mha, ln1 := sd.ln1, ln2 := sd.ln2 }

def decLayerLoad (base : DecoderLayerP) (sd : DecoderLayerSD) : DecoderLayerP :=
  { base with
    ff := sd.ff
    mha := mhaLoad base.mha sd.mha
    mmha := mhaLoad base.mmha sd.mmha
    ln1 := sd.ln1
    ln2 := sd.ln2
    ln3 := sd.ln3 }

def optLnLoad (base sd : Option LayerNormP) : Option LayerNormP :=
  match base, sd with
  | some _, some l => some l
  | _, _ => base

def encoderLoad (base : EncoderP) (sd : EncoderSD) : EncoderP :=
  ⟨(base.encoder_layers.zip sd.layers).map fun p => encLayerLoad p.1 p.2,
    optLnLoad base.final_ln sd.final_ln⟩

def decoderLoad (base : DecoderP) (sd : DecoderSD) : DecoderP :=
  ⟨(base.decoder_layers.zip sd.layers).map fun p => decLayerLoad p.1 p.2,
    optLnLoad base.final_ln sd.final_ln⟩

def loadStateDict (base : Transformer) (sd : StateDict) : Transformer :=
  { base with
    embeddings := sd.embeddings
    fc := sd.fc
    encoder := encoderLoad base.encoder sd.encoder
    decoder := decoderLoad base.decoder sd.decoder }

/-- A freshly constructed linear layer of the given shape (initial values are
irrelevant to every claim below, so they are taken to be zero). -/
def zeroLinear (inF outF : Nat) : Linear :=
  ⟨inF, outF, fun _ _ => 0, fun _ => 0⟩

/-- `nn.LayerNorm` initialization: weight ones, bias zeros. -/
def initLN (dim : Nat) : LayerNormP :=
  ⟨dim, fun _ => 1, fun _ => 0⟩

/-- A freshly constructed `MultiHeadAttention` (shape bookkeeping only). -/
def baseMHA (n_heads embed_size : Nat) : MHAP :=
  ⟨n_heads, embed_size, embed_size / n_heads,
    zeroLinear embed_size embed_size, zeroLinear embed_size embed_size,
    zeroLinear embed_size embed_size, zeroLinear embed_size embed_size⟩

def baseFF (d_out d_ff : Nat) : FeedForwardP :=
  ⟨zeroLinear d_out d_ff, zeroLinear d_ff d_out⟩

def baseEncoderLayer (n_heads embed_size d_ff : Nat) (post_ln : Bool) :
    EncoderLayerP :=
  ⟨baseFF embed_size d_ff, baseMHA n_heads embed_size,
    initLN embed_size, initLN embed_size, post_ln⟩

def baseDecoderLayer (n_heads embed_size d_ff : Nat) (post_ln : Bool) :
    DecoderLayerP :=
  ⟨baseFF embed_size d_ff, baseMHA n_heads embed_size, baseMHA n_heads embed_size,
    initLN embed_size, initLN embed_size, initLN embed_size, post_ln⟩

def baseEncoder (c : TransformerConfig) : EncoderP :=
  ⟨List.replicate c.n_encoder_layers
      (baseEncoderLayer c.n_encoder_heads c.embed_size c.d_ff c.post_ln),
    if c.post_ln then none else some (initLN c.embed_size)⟩

def baseDecoder (c : TransformerConfig) : DecoderP :=
  ⟨List.replicate c.n_decoder_layers
      (baseDecoderLayer c.n_decoder_heads c.embed_size c.d_ff c.post_ln),
    if c.post_ln then none else some (initLN c.embed_size)⟩

/-- The model produced by `Transformer.__init__` once its checks have passed
(initial random weights abstracted to zeros; when `tie_embeddings` is set the
embedding weight is the `fc` weight, mirroring
`self.embeddings.weight = self.fc.weight`). -/
def buildBase (c : TransformerConfig) : Transformer :=
  let fc := zeroLinear c.embed_size c.vocab_size
  { config := c
    pos_enc := posTable c.max_len c.embed_size
    encoder := baseEncoder c
    decoder := baseDecoder c
    sqrt_dmodel := Real.sqrt c.embed_size
    embeddings :=
      if c.tie_embeddings then ⟨c.vocab_size, c.embed_size, fc.weight⟩
      else ⟨c.vocab_size, c.embed_size, fun _ _ => 0⟩
    fc := fc }

/-- Shape check of one linear layer against the architecture. -/
def linDimsB (l : Linear) (i o : Nat) : Bool :=
  l.inF == i && l.outF == o

def mhaDimsB (m : MHASD) (e : Nat) : Bool :=
  linDimsB m.q_weights e e && linDimsB m.k_weights e e &&
  linDimsB m.v_weights e e && linDimsB m.proj e e

def ffDimsB (f : FeedForwardP) (e dff : Nat) : Bool :=
  linDimsB f.lin1 e dff && linDimsB f.lin2 dff e

def encLayerDimsB (c : TransformerConfig) (L : EncoderLayerSD) : Bool :=
  ffDimsB L.ff c.embed_size c.d_ff && mhaDimsB L.mha c.embed_size &&
  (L.ln1.dim == c.embed_size) && (L.ln2.dim == c.embed_size)

def decLayerDimsB (c : TransformerConfig) (L : DecoderLayerSD) : Bool :=
  ffDimsB L.ff c.embed_size c.d_ff && mhaDimsB L.mha c.embed_size &&
  mhaDimsB L.mmha c.embed_size && (L.ln1.dim == c.embed_size) &&
  (L.ln2.dim == c.embed_size) && (L.ln3.dim == c.embed_size)

def optLnB (o : Option LayerNormP) (post_ln : Bool) (e : Nat) : Bool :=
  match o, post_ln with
  | none, true => true
  | some l, false => l.dim == e
  | _, _ => false

/-- `load_state_dict` succeeds iff the saved keys and tensor shapes match the
architecture of the freshly constructed model (mismatched architecture on load
is an error, not a silent partial load). -/
def archMatches (c : TransformerConfig) (sd : StateDict) : Bool :=
  (sd.embeddings.num_embeddings == c.vocab_size) &&
  (sd.embeddings.embedding_dim == c.embed_size) &&
  linDimsB sd.fc c.embed_size c.vocab_size &&
  (sd.encoder.layers.length == c.n_encoder_layers) &&
  sd.encoder.layers.all (encLayerDimsB c) &&
  optLnB sd.encoder.final_ln c.post_ln c.embed_size &&
  (sd.decoder.layers.length == c.n_decoder_layers) &&
  sd.decoder.layers.all (decLayerDimsB c) &&
  optLnB sd.decoder.final_ln c.post_ln c.embed_size

/-- Values appearing in the persisted `config.json` document. -/
inductive CfgVal where
  | natV (n : Nat)
  | boolV (b : Bool)
deriving DecidableEq

def kVocabSize : String := "vocab_size"

def kNEncoderLayers : String := "n_encoder_layers"

def kNDecoderLayers : String := "n_decoder_layers"

def kNEncoderHeads : String := "n_encoder_heads"

def kNDecoderHeads : String := "n_decoder_heads"

def kEmbedSize : String := "embed_size"

def kDFF : String := "d_ff"

def kMaxLen : String := "max_len"

def kTieEmbeddings : String := "tie_embeddings"

def kPostLn : String := "post_ln"

def kUseAdditionalDropout : String := "use_additional_dropout"

def kXavierInitialization : String := "xavier_initialization"

def cfgKeys : List String :=
  [kVocabSize, kNEncoderLayers, kNDecoderLayers, kNEncoderHeads, kNDecoderHeads,
    kEmbedSize, kDFF, kMaxLen, kTieEmbeddings, kPostLn, kUseAdditionalDropout,
    kXavierInitialization]

/-- `json.dump(asdict(self.config))`: the config as a flat key-value document
(ints and bools survive a JSON round trip unchanged). -/
def asdict (c : TransformerConfig) : List (String × CfgVal) :=
  [(kVocabSize, .natV c.vocab_size),
   (kNEncoderLayers, .natV c.n_encoder_layers),
   (kNDecoderLayers, .natV c.n_decoder_layers),
   (kNEncoderHeads, .natV c.n_encoder_heads),
   (kNDecoderHeads, .natV c.n_decoder_heads),
   (kEmbedSize, .natV c.embed_size),
   (kDFF, .natV c.d_ff),
   (kMaxLen, .natV c.max_len),
   (kTieEmbeddings, .boolV c.tie_embeddings),
   (kPostLn, .boolV c.post_ln),
   (kUseAdditionalDropout, .boolV c.use_additional_dropout),
   (kXavierInitialization, .boolV c.xavier_initialization)]

/-- Keyword lookup for `TransformerConfig(**config)`: a missing key falls back
to the dataclass default, a key bound to a wrongly-typed value fails. -/
def lookupNat (l : List (String × CfgVal)) (k : String) (dflt : Nat) : Option Nat :=
  match l.lookup k with
  | some (.natV n) => some n
  | some _ => none
  | none => some dflt

def lookupBool (l : List (String × CfgVal)) (k : String) (dflt : Bool) : Option Bool :=
  match l.lookup k with
  | some (.boolV b) => some b
  | some _ => none
  | none => some dflt

/-- `TransformerConfig(**config)`: unknown keys are a TypeError, known keys
fill fields, missing keys take the dataclass defaults. -/
def fromDict (l : List (String × CfgVal)) : Option TransformerConfig :=
  if l.all fun kv => cfgKeys.contains kv.1 then do
    let vocab ← lookupNat l kVocabSize 8192
    let nel ← lookupNat l kNEncoderLayers 6
    let ndl ← lookupNat l kNDecoderLayers 6
    let neh ← lookupNat l kNEncoderHeads 8
    let ndh ← lookupNat l kNDecoderHeads 8
    let emb ← lookupNat l kEmbedSize 512
    let dff ← lookupNat l kDFF 2048
    let ml ← lookupNat l kMaxLen 4096
    let tie ← lookupBool l kTieEmbeddings true
    let pln ← lookupBool l kPostLn true
    let uad ← lookupBool l kUseAdditionalDropout false
    let xav ← lookupBool l kXavierInitialization false
    pure ⟨vocab, nel, ndl, neh, ndh, emb, dff, ml, tie, pln, uad, xav⟩
  else none

/-- What `save_pretrained` writes: the weights artifact (`model.pt`) and the
config artifact (`config.json`), as two independent documents. -/
def save_pretrained (m : Transformer) : List (String × CfgVal) × StateDict :=
  (asdict m.config, stateDict m)

inductive LoadError where
  | badConfig
  | constructionFailed (e : InitError)
  | archMismatch
deriving DecidableEq

/-- `Transformer.from_pretrained`: read the config document, reconstruct an
architecturally matching instance (running the construction-time checks), then
load the saved weights into it. -/
def from_pretrained (sm : List (String × CfgVal) × StateDict) :
    Except LoadError Transformer :=
  match fromDict sm.1 with
  | none => .error .badConfig
  | some c =>
    match initChecks c with
    | .error e => .error (.constructionFailed e)
    | .ok _ =>
      if archMatches c sm.2 then .ok (loadStateDict (buildBase c) sm.2)
      else .error .archMismatch

/-- A model as produced by construction (and possibly trained): its
construction checks pass, its tensor shapes match its config, and its
non-tensor attributes (head bookkeeping, flags, positional table, `√E`) are
exactly the ones construction produces. -/
def WellFormed (m : Transformer) : Prop :=
  initChecks m.config = .ok () ∧
  archMatches m.config (stateDict m) = true ∧
  loadStateDict (buildBase m.config) (stateDict m) = m

/-- `nn.Dropout` in evaluation mode is the identity (the claims under proof
all stipulate evaluation mode / disabled stochastic dropout). -/
def dropoutEval {α : Type} (x : α) : α := x

/-- A linear layer applied along the last axis of a rank-3 tensor. -/
def linear3 (L : Linear) (x : Tensor3) : Tensor3 :=
  ⟨x.d0, x.d1, L.outF, fun b l o =>
    (∑ j ∈ Finset.range L.inF, x.ent b l j * L.weight o j) + L.bias o⟩

/-- `nn.ReLU`. -/
def relu3 (x : Tensor3) : Tensor3 :=
  ⟨x.d0, x.d1, x.d2, fun b l e => max (x.ent b l e) 0⟩

/-- `FeedForward.forward`: `lin2 (dropout (relu (lin1 x)))`. -/
def ffForward (f : FeedForwardP) (x : Tensor3) : Tensor3 :=
  linear3 f.lin2 (dropoutEval (relu3 (linear3 f.lin1 x)))

/-- `nn.LayerNorm` default epsilon, 1e-5. -/
def lnEps : ℝ := 1 / 100000

/-- `nn.LayerNorm` over the last axis: biased mean/variance of each row,
then the elementwise affine transform. -/
def layerNorm3 (p : LayerNormP) (x : Tensor3) : Tensor3 :=
  ⟨x.d0, x.d1, x.d2, fun b l e =>
    let mean := (∑ j ∈ Finset.range p.dim, x.ent b l j) / p.dim
    let varb := (∑ j ∈ Finset.range p.dim, (x.ent b l j - mean) ^ 2) / p.dim
    p.weight e * ((x.ent b l e - mean) / Real.sqrt (varb + lnEps)) + p.bias e⟩

/-- Elementwise addition (the residual `x + sublayer(x)`; the operands of
every use have identical shapes). -/
def addT (a c : Tensor3) : Tensor3 :=
  ⟨a.d0, a.d1, a.d2, fun b l e => a.ent b l e + c.ent b l e⟩

/-- In-place scalar multiplication `x *= s`. -/
def scaleT (s : ℝ) (x : Tensor3) : Tensor3 :=
  ⟨x.d0, x.d1, x.d2, fun b l e => x.ent b l e * s⟩

/-- `self.embeddings(ids)`: table lookup along the last axis. -/
def embedLookup (emb : EmbeddingP) (ids : NTensor2) : Tensor3 :=
  ⟨ids.d0, ids.d1, emb.embedding_dim, fun b l e => emb.weight (ids.ent b l) e⟩

/-- Broadcast index rule: a size-1 dimension is read at 0. -/
def bcIdx (dim i : Nat) : Nat := if dim = 1 then 0 else i

/-- The mask value seen by attention entry `(b, h, i, j)` after
`mask.unsqueeze(1)`: the head axis is the inserted size-1 axis, the remaining
three axes broadcast against `(batch, query, key)`. -/
def maskVal (m : NTensor3) (b i j : Nat) : Nat :=
  m.ent (bcIdx m.d0 b) (bcIdx m.d1 i) (bcIdx m.d2 j)

/-- Attention score `(q @ k.transpose(-1, -2) / d_k ** 0.5)` at
`(b, h, i, j)`. -/
def sdpaScore (q k : Tensor4) (b h i j : Nat) : ℝ :=
  (∑ t ∈ Finset.range k.d3, q.ent b h i t * k.ent b h j t) / Real.sqrt k.d3

/-- Post-softmax attention weight. Without a mask this is a plain softmax over
the key axis; with a mask, `masked_fill(mask == 0, -inf)` makes a masked entry
contribute `exp(-inf) = 0` to numerator and denominator. -/
def sdpaWeight (q k : Tensor4) (mask : Option NTensor3) (b h i j : Nat) : ℝ :=
  match mask with
  | none =>
      Real.exp (sdpaScore q k b h i j) /
        ∑ j2 ∈ Finset.range k.d2, Real.exp (sdpaScore q k b h i j2)
  | some m =>
      if maskVal m b i j = 0 then 0
      else
        Real.exp (sdpaScore q k b h i j) /
          ∑ j2 ∈ Finset.range k.d2,
            if maskVal m b i j2 = 0 then 0
            else Real.exp (sdpaScore q k b h i j2)

/-- `ScaledDotProductAttention.forward` (evaluation mode): softmax of the
scaled, optionally masked scores, multiplied into `v`. -/
def sdpa (q k v : Tensor4) (mask : Option NTensor3) : Tensor4 :=
  ⟨q.d0, q.d1, q.d2, v.d3, fun b h i t =>
    ∑ j ∈ Finset.range k.d2, sdpaWeight q k mask b h i j * v.ent b h j t⟩

/-- `x.view(batch, L, n_heads, head_dim).transpose(1, 2)`: entry
`(b, h, l, t)` is entry `(b, l, h * head_dim + t)` of the projected input. -/
def splitHeads (p : MHAP) (x : Tensor3) : Tensor4 :=
  ⟨x.d0, p.n_heads, x.d1, p.head_dim, fun b h l t => x.ent b l (h * p.head_dim + t)⟩

/-- `MultiHeadAttention.forward`: project q/k/v, split into heads, run SDPA,
transpose back, merge heads (`.contiguous().view(batch, Lq, embed_size)`:
entry `(b, l, e)` of the merged tensor is head `e / head_dim`, lane
`e % head_dim`), and apply the output projection. -/
def mhaForward (p : MHAP) (q k v : Tensor3) (mask : Option NTensor3) : Tensor3 :=
  let q4 := splitHeads p (linear3 p.q_weights q)
  let k4 := splitHeads p (linear3 p.k_weights k)
  let v4 := splitHeads p (linear3 p.v_weights v)
  let att := sdpa q4 k4 v4 mask
  let merged : Tensor3 :=
    ⟨q.d0, q4.d2, p.embed_size, fun b l e =>
      att.ent b (e / p.head_dim) l (e % p.head_dim)⟩
  linear3 p.proj merged

/-- `EncoderLayer.forward`: post-norm or pre-norm residual arrangement. -/
def encLayerForward (L : EncoderLayerP) (x : Tensor3) (mask : Option NTensor3) :
    Tensor3 :=
  if L.post_ln then
    let attention := layerNorm3 L.ln1 (addT x (dropoutEval (mhaForward L.mha x x x mask)))
    layerNorm3 L.ln2 (addT attention (dropoutEval (ffForward L.ff attention)))
  else
    let x_ln := layerNorm3 L.ln1 x
    let attention := addT x (dropoutEval (mhaForward L.mha x_ln x_ln x_ln mask))
    let attention_ln := layerNorm3 L.ln2 attention
    addT attention (dropoutEval (ffForward L.ff attention_ln))

/-- `Encoder.forward`: the layers in order, then the final layer norm in
pre-norm mode. -/
def encoderForward (enc : EncoderP) (x : Tensor3) (mask : Option NTensor3) :
    Tensor3 :=
  let y := enc.encoder_layers.foldl (fun acc L => encLayerForward L acc mask) x
  match enc.final_ln with
  | none => y
  | some ln => layerNorm3 ln y

/-- `DecoderLayer.forward`: masked self-attention, cross-attention against the
encoder memory, feed-forward; post-norm or pre-norm arrangement. -/
def decLayerForward (L : DecoderLayerP) (x memory : Tensor3)
    (causal_mask : NTensor3) (encoder_mask : Option NTensor3) : Tensor3 :=
  if L.post_ln then
    let attention :=
      layerNorm3 L.ln1 (addT x (dropoutEval (mhaForward L.mmha x x x (some causal_mask))))
    let attention2 :=
      layerNorm3 L.ln2
        (addT attention (dropoutEval (mhaForward L.mha attention memory memory encoder_mask)))
    layerNorm3 L.ln3 (addT attention2 (dropoutEval (ffForward L.ff attention2)))
  else
    let x_ln := layerNorm3 L.ln1 x
    let attention := addT x (dropoutEval (mhaForward L.mmha x_ln x_ln x_ln (some causal_mask)))
    let attention_ln := layerNorm3 L.ln2 attention
    let attention2 :=
      addT attention (dropoutEval (mhaForward L.mha attention_ln memory memory encoder_mask))
    let attention2_ln := layerNorm3 L.ln3 attention2
    addT attention2 (dropoutEval (ffForward L.ff attention2_ln))

/-- `Decoder.forward`: the causal mask is generated once from the target
length and shared by every layer; final layer norm in pre-norm mode. -/
def decoderForward (dec : DecoderP) (x memory : Tensor3)
    (encoder_mask : Option NTensor3) : Tensor3 :=
  let tgt_mask := unsqueeze0 (create_causal_mask x.d1)
  let y := dec.decoder_layers.foldl
    (fun acc L => decLayerForward L acc memory tgt_mask encoder_mask) x
  match dec.final_ln with
  | none => y
  | some ln => layerNorm3 ln y

/-- `x += pos_enc[: x.size(1)]`: the sliced table has `min (x.d1) (table rows)`
rows; an in-place add broadcasts it against the sequence axis iff the row
counts are equal or the slice has exactly one row. (The column axes always
agree: both are `embed_size`.) -/
def posAdd (tbl : Tensor2) (x : Tensor3) : Except ShapeError Tensor3 :=
  if min x.d1 tbl.d0 = x.d1 then
    .ok ⟨x.d0, x.d1, x.d2, fun b l e => x.ent b l e + tbl.ent l e⟩
  else if min x.d1 tbl.d0 = 1 then
    .ok ⟨x.d0, x.d1, x.d2, fun b l e => x.ent b l e + tbl.ent 0 e⟩
  else .error .broadcastMismatch

/-- The embedded token tensor after `self.embeddings(ids)` and
`*= self.sqrt_dmodel`, before the positional rows are added (shared by both
`encode` and `decode`). -/
def scaledEmbedding (m : Transformer) (ids : NTensor2) : Tensor3 :=
  scaleT m.sqrt_dmodel (embedLookup m.embeddings ids)

/-- `Transformer.encode`: reshape the optional padding mask, embed, scale,
add positional rows, dropout, run the encoder; returns the memory and the
reshaped mask. -/
def encode (m : Transformer) (src : NTensor2) (src_mask : Option NTensor2) :
    Except ShapeError (Tensor3 × Option NTensor3) :=
  let mask3 := src_mask.map pad3
  match posAdd m.pos_enc (scaledEmbedding m src) with
  | .error e => .error e
  | .ok src_embed =>
      .ok (encoderForward m.encoder (dropoutEval src_embed) mask3, mask3)

/-- `Transformer.decode`: embed, scale, add positional rows, dropout, run the
decoder against the memory, project to vocabulary logits. -/
def decode (m : Transformer) (memory : Tensor3) (tgt : NTensor2)
    (src_mask : Option NTensor3) : Except ShapeError Tensor3 :=
  match posAdd m.pos_enc (scaledEmbedding m tgt) with
  | .error e => .error e
  | .ok tgt_embed =>
      .ok (linear3 m.fc (decoderForward m.decoder (dropoutEval tgt_embed) memory src_mask))

/-- `Transformer.forward`: `encode` then `decode`. -/
def forward (m : Transformer) (src tgt : NTensor2) (src_mask : Option NTensor2) :
    Except ShapeError Tensor3 :=
  match encode m src src_mask with
  | .error e => .error e
  | .ok (memory, mask3) => decode m memory tgt mask3

/-! ### Weight-storage (aliasing) model

`self.embeddings.weight = self.fc.weight` is a rebinding of a parameter
reference, so sharing is modelled by a cell store: each parameter reference is
a cell id, reads and in-place writes go through the store, and tying makes the
two references name one cell. -/

/-- The two top-level weight references of the model. -/
structure WeightRefs where
  embeddingsWeight : Nat
  fcWeight : Nat
deriving DecidableEq

/-- Parameter storage: cell id → matrix. -/
def Store : Type := Nat → Nat → Nat → ℝ

/-- In-place mutation of one cell. -/
def writeCell (s : Store) (c : Nat) (mat : Nat → Nat → ℝ) : Store :=
  fun c2 => if c2 = c then mat else s c2

def readCell (s : Store) (c : Nat) : Nat → Nat → ℝ := s c

/-- `Transformer.__init__` allocates the embedding matrix (cell 0) and the
`fc` weight (cell 1); when `tie_embeddings` is set,
`self.embeddings.weight = self.fc.weight` rebinds the embedding reference to
the `fc` cell. -/
def mkWeightRefs (tie_embeddings : Bool) : WeightRefs :=
  let refs : WeightRefs := ⟨0, 1⟩
  if tie_embeddings then { refs with embeddingsWeight := refs.fcWeight } else refs

/-- A model whose embedding and output-projection weights are read through the
references from the store. -/
def materialize (m : Transformer) (r : WeightRefs) (s : Store) : Transformer :=
  { m with
    embeddings := { m.embeddings with weight := readCell s r.embeddingsWeight }
    fc := { m.fc with weight := readCell s r.fcWeight } }

/-- `forward` on the stateful model: the result plus the (unchanged) parameter
references — a forward pass mutates activations only, never rebinds weights. -/
def forwardCall (m : Transformer) (r : WeightRefs) (s : Store)
    (src tgt : NTensor2) (msk : Option NTensor2) :
    Except ShapeError Tensor3 × WeightRefs :=
  (forward (materialize m r s) src tgt msk, r)

def encodeCall (m : Transformer) (r : WeightRefs) (s : Store)
    (src : NTensor2) (msk : Option NTensor2) :
    Except ShapeError (Tensor3 × Option NTensor3) × WeightRefs :=
  (encode (materialize m r s) src msk, r)

def decodeCall (m : Transformer) (r : WeightRefs) (s : Store)
    (memory : Tensor3) (tgt : NTensor2) (msk : Option NTensor3) :
    Except ShapeError Tensor3 × WeightRefs :=
  (decode (materialize m r s) memory tgt msk, r)

/-! ### Helper lemmas: construction checks -/

lemma positional_encoding_ok (seq_len embed_size : Nat)
    (h : cosSliceOk embed_size) :
    positional_encoding seq_len embed_size = .ok (posTable seq_len embed_size) := by
  simp [positional_encoding, h]

lemma positional_encoding_err (seq_len embed_size : Nat)
    (h : ¬ cosSliceOk embed_size) :
    positional_encoding seq_len embed_size = .error .shapeMismatch := by
  simp [positional_encoding, h]

lemma layerStackCheck_of_ok (n : Nat) (chk : Except InitError Unit)
    (h : chk = .ok ()) : layerStackCheck n chk = .ok () := by
  subst h
  induction n with
  | zero => rfl
  | succ k ih => exact ih

lemma layerStackCheck_of_err (n : Nat) (chk : Except InitError Unit)
    (e : InitError) (h : chk = .error e) (hn : 1 ≤ n) :
    layerStackCheck n chk = .error e := by
  subst h
  cases n with
  | zero => exact (Nat.not_succ_le_zero 0 hn).elim
  | succ k => rfl

lemma mhaInitCheck_ok (n_heads embed_size : Nat) (h0 : n_heads ≠ 0)
    (hdiv : embed_size % n_heads = 0) :
    mhaInitCheck n_heads embed_size = .ok () := by
  simp [mhaInitCheck, h0, hdiv]

lemma mhaInitCheck_err (n_heads embed_size : Nat)
    (h : n_heads = 0 ∨ embed_size % n_heads ≠ 0) :
    ∃ e, mhaInitCheck n_heads embed_size = .error e := by
  unfold mhaInitCheck
  rcases h with h | h
  · exact ⟨.zeroDivision, by simp [h]⟩
  · rcases Nat.eq_zero_or_pos n_heads with h0 | h0
    · exact ⟨.zeroDivision, by simp [h0]⟩
    · have h0' : ¬ n_heads = 0 := by omega
      exact ⟨.assertionFailed, by simp [h0', h]⟩

lemma seqChecks_ok_iff (a b : Except InitError Unit) :
    seqChecks a b = .ok () ↔ (a = .ok () ∧ b = .ok ()) := by
  rcases a with e | u
  · simp [seqChecks]
  · cases u
    simp [seqChecks]

lemma xavierLinear_ok_iff (dOut dIn : Nat) :
    xavierLinear dOut dIn = .ok () ↔ dOut + dIn ≠ 0 := by
  unfold xavierLinear
  split_ifs with h
  · simp [h]
  · simp [h]

lemma layerStackCheck_ok_iff (n : Nat) (chk : Except InitError Unit) :
    layerStackCheck n chk = .ok () ↔ (n = 0 ∨ chk = .ok ()) := by
  cases n with
  | zero => simp [layerStackCheck]
  | succ k =>
    rcases chk with e | u
    · constructor
      · intro h
        rw [show layerStackCheck (k + 1) (Except.error e : Except InitError Unit) =
          .error e from rfl] at h
        exact absurd h (by simp)
      · intro h
        rcases h with h | h
        · omega
        · exact absurd h (by simp)
    · cases u
      rw [layerStackCheck_of_ok (k + 1) _ rfl]
      simp

lemma xavierAttention_ok_iff (e : Nat) :
    xavierAttention e = .ok () ↔ e ≠ 0 := by
  unfold xavierAttention
  rw [seqChecks_ok_iff, seqChecks_ok_iff, seqChecks_ok_iff, xavierLinear_ok_iff]
  omega

lemma xavierFeedForward_ok_iff (e dff : Nat) :
    xavierFeedForward e dff = .ok () ↔ e + dff ≠ 0 := by
  unfold xavierFeedForward
  rw [seqChecks_ok_iff, xavierLinear_ok_iff, xavierLinear_ok_iff]
  omega

lemma xavierEncoderLayerCheck_ok_iff (c : TransformerConfig) :
    xavierEncoderLayerCheck c = .ok () ↔ c.embed_size ≠ 0 := by
  unfold xavierEncoderLayerCheck
  rw [seqChecks_ok_iff, xavierFeedForward_ok_iff, xavierAttention_ok_iff]
  omega

lemma xavierDecoderLayerCheck_ok_iff (c : TransformerConfig) :
    xavierDecoderLayerCheck c = .ok () ↔ c.embed_size ≠ 0 := by
  unfold xavierDecoderLayerCheck
  rw [seqChecks_ok_iff, seqChecks_ok_iff, xavierFeedForward_ok_iff,
    xavierAttention_ok_iff]
  omega

lemma initParamsCheck_ok_iff (c : TransformerConfig) :
    initParamsCheck c = .ok () ↔
      (c.xavier_initialization = false ∨
        ((c.n_encoder_layers = 0 ∨ c.embed_size ≠ 0) ∧
         (c.n_decoder_layers = 0 ∨ c.embed_size ≠ 0) ∧
         c.vocab_size + c.embed_size ≠ 0)) := by
  unfold initParamsCheck
  cases hx : c.xavier_initialization with
  | false => simp [hx]
  | true =>
    rw [if_pos rfl]
    rw [seqChecks_ok_iff, seqChecks_ok_iff, seqChecks_ok_iff,
      layerStackCheck_ok_iff, layerStackCheck_ok_iff,
      xavierEncoderLayerCheck_ok_iff, xavierDecoderLayerCheck_ok_iff,
      xavierLinear_ok_iff]
    simp only [Bool.true_eq_false, false_or]
    omega

lemma posAdd_err (tbl : Tensor2) (x : Tensor3) (h1 : tbl.d0 < x.d1)
    (h2 : 2 ≤ tbl.d0) : posAdd tbl x = .error .broadcastMismatch := by
  unfold posAdd
  have hm : min x.d1 tbl.d0 = tbl.d0 := Nat.min_eq_right (Nat.le_of_lt h1)
  rw [hm]
  have hne : tbl.d0 ≠ x.d1 := Nat.ne_of_lt h1
  have hne1 : tbl.d0 ≠ 1 := by omega
  simp [hne, hne1]

lemma posAdd_ok_of_le (tbl : Tensor2) (x : Tensor3) (h : x.d1 ≤ tbl.d0) :
    posAdd tbl x =
      .ok ⟨x.d0, x.d1, x.d2, fun b l e => x.ent b l e + tbl.ent l e⟩ := by
  unfold posAdd
  have hm : min x.d1 tbl.d0 = x.d1 := Nat.min_eq_left h
  rw [hm]
  simp

/-! ### Helper lemmas: well-formedness projections -/

lemma wellFormed_pos_enc (m : Transformer) (h : WellFormed m) :
    m.pos_enc = posTable m.config.max_len m.config.embed_size := by
  conv_lhs => rw [← h.2.2]
  rfl

lemma wellFormed_sqrt_dmodel (m : Transformer) (h : WellFormed m) :
    m.sqrt_dmodel = Real.sqrt m.config.embed_size := by
  conv_lhs => rw [← h.2.2]
  rfl

lemma wellFormed_fc_outF (m : Transformer) (h : WellFormed m) :
    m.fc.outF = m.config.vocab_size := by
  have ha := h.2.1
  simp only [archMatches, linDimsB, Bool.and_eq_true, beq_iff_eq] at ha
  exact ha.1.1.1.1.1.1.2.2

/-! ### C3: causal mask correctness -/

/-- C3: for every `seq_len ≥ 1`, `create_causal_mask` returns a
`(seq_len, seq_len)` matrix whose entry `(i, j)` is 1 iff `j ≤ i` (0
otherwise); in particular for `seq_len = 4`, row `i` has exactly `i + 1` ones
and `3 - i` zeros, and the matrix is
`[[1,0,0,0],[1,1,0,0],[1,1,1,0],[1,1,1,1]]`. -/
theorem c3_causal_mask_correct (n : Nat) (hn : 1 ≤ n) :
    (create_causal_mask n).d0 = n ∧ (create_causal_mask n).d1 = n ∧
    (∀ i j, i < n → j < n →
      (create_causal_mask n).ent i j = if j ≤ i then 1 else 0) ∧
    (∀ i, i < 4 →
      ((List.range 4).filter fun j => (create_causal_mask 4).ent i j = 1).length = i + 1 ∧
      ((List.range 4).filter fun j => (create_causal_mask 4).ent i j = 0).length = 3 - i) ∧
    (List.range 4).map (fun i => (List.range 4).map ((create_causal_mask 4).ent i)) =
      [[1, 0, 0, 0], [1, 1, 0, 0], [1, 1, 1, 0], [1, 1, 1, 1]] := by
  refine ⟨rfl, rfl, ?_, by decide, by decide⟩
  intro i j _ _
  simp [create_causal_mask, tril, onesN]

/-- C3 witness: the theorem applied at `seq_len = 4`. -/
theorem c3_causal_mask_correct_witness :
    (create_causal_mask 4).d0 = 4 ∧ (create_causal_mask 4).d1 = 4 ∧
    (∀ i j, i < 4 → j < 4 →
      (create_causal_mask 4).ent i j = if j ≤ i then 1 else 0) ∧
    (∀ i, i < 4 →
      ((List.range 4).filter fun j => (create_causal_mask 4).ent i j = 1).length = i + 1 ∧
      ((List.range 4).filter fun j => (create_causal_mask 4).ent i j = 0).length = 3 - i) ∧
    (List.range 4).map (fun i => (List.range 4).map ((create_causal_mask 4).ent i)) =
      [[1, 0, 0, 0], [1, 1, 0, 0], [1, 1, 1, 0], [1, 1, 1, 1]] :=
  c3_causal_mask_correct 4 (by decide)

/-! ### C5: weight tying -/

/-- C5: with `tie_embeddings` enabled, the embedding-weight reference and the
output-projection reference name the same storage cell, so an in-place write
through either reference is read back through the other; `encode`, `decode`
and `forward` calls return the references unchanged (the identity is
preserved), and any materialized model reads the same matrix through both. -/
theorem c5_weight_tying :
    (mkWeightRefs true).embeddingsWeight = (mkWeightRefs true).fcWeight ∧
    (∀ (s : Store) (mat : Nat → Nat → ℝ) (i j : Nat),
      readCell (writeCell s (mkWeightRefs true).embeddingsWeight mat)
          (mkWeightRefs true).fcWeight i j = mat i j ∧
      readCell (writeCell s (mkWeightRefs true).fcWeight mat)
          (mkWeightRefs true).embeddingsWeight i j = mat i j) ∧
    (∀ m s src tgt msk, (forwardCall m (mkWeightRefs true) s src tgt msk).2 =
      mkWeightRefs true) ∧
    (∀ m s src msk, (encodeCall m (mkWeightRefs true) s src msk).2 =
      mkWeightRefs true) ∧
    (∀ m s memory tgt msk, (decodeCall m (mkWeightRefs true) s memory tgt msk).2 =
      mkWeightRefs true) ∧
    (∀ m s, (materialize m (mkWeightRefs true) s).embeddings.weight =
      (materialize m (mkWeightRefs true) s).fc.weight) := by
  refine ⟨rfl, ?_, fun _ _ _ _ _ => rfl, fun _ _ _ _ => rfl, fun _ _ _ _ _ => rfl,
    fun _ _ => rfl⟩
  intro s mat i j
  exact ⟨by simp [readCell, writeCell, mkWeightRefs],
    by simp [readCell, writeCell, mkWeightRefs]⟩

/-! ### C8: construction error on indivisible heads -/

/-- A config with indivisible encoder heads (`4 % 3 ≠ 0`) but zero layers on
both sides: no layer is built, so no divisibility assert ever runs. -/
def c8zeroLayerCfg : TransformerConfig :=
  { n_encoder_layers := 0, n_decoder_layers := 0,
    n_encoder_heads := 3, n_decoder_heads := 3, embed_size := 4 }

/-- C8 counterexample: `embed_size = 4` is not divisible by
`n_encoder_heads = 3`, yet with zero encoder and decoder layers construction
runs no `MultiHeadAttention` assert and succeeds. -/
theorem c8_counterexample :
    c8zeroLayerCfg.embed_size % c8zeroLayerCfg.n_encoder_heads ≠ 0 ∧
    initChecks c8zeroLayerCfg = .ok () := by
  exact ⟨by decide, rfl⟩

/-- C8 (amended): if a side with at least one layer has a head count that is 0
or does not divide `embed_size`, construction raises; if both head counts are
nonzero and divide `embed_size`, construction never raises the divisibility
assertion — it reduces exactly to the positional-encoding parity check (odd
`embed_size ≥ 3` fails) followed by the `_init_params` xavier pass, and that
pass fails (with a ZeroDivisionError on a zero-fan weight) precisely when
`xavier_initialization` is set and either `embed_size = 0` with at least one
layer on some side, or `vocab_size + embed_size = 0`. -/
theorem c8_indivisible_heads_error (c : TransformerConfig) :
    ((1 ≤ c.n_encoder_layers ∧
        (c.n_encoder_heads = 0 ∨ c.embed_size % c.n_encoder_heads ≠ 0)) ∨
     (1 ≤ c.n_decoder_layers ∧
        (c.n_decoder_heads = 0 ∨ c.embed_size % c.n_decoder_heads ≠ 0)) →
      ∃ e, initChecks c = .error e) ∧
    (c.n_encoder_heads ≠ 0 → c.n_decoder_heads ≠ 0 →
      c.embed_size % c.n_encoder_heads = 0 → c.embed_size % c.n_decoder_heads = 0 →
      initChecks c =
        if cosSliceOk c.embed_size then initParamsCheck c
        else .error .shapeMismatch) ∧
    (initParamsCheck c = .ok () ↔
      (c.xavier_initialization = false ∨
        ((c.n_encoder_layers = 0 ∨ c.embed_size ≠ 0) ∧
         (c.n_decoder_layers = 0 ∨ c.embed_size ≠ 0) ∧
         c.vocab_size + c.embed_size ≠ 0))) := by
  constructor
  · intro hbad
    by_cases hpos : cosSliceOk c.embed_size
    · rcases hbad with ⟨hn, hh⟩ | ⟨hn, hh⟩
      · obtain ⟨e, he⟩ := mhaInitCheck_err c.n_encoder_heads c.embed_size hh
        refine ⟨e, ?_⟩
        unfold initChecks
        rw [positional_encoding_ok _ _ hpos,
          layerStackCheck_of_err c.n_encoder_layers _ e he hn]
      · obtain ⟨e, he⟩ := mhaInitCheck_err c.n_decoder_heads c.embed_size hh
        rcases henc : layerStackCheck c.n_encoder_layers
            (mhaInitCheck c.n_encoder_heads c.embed_size) with e2 | u
        · refine ⟨e2, ?_⟩
          unfold initChecks
          rw [positional_encoding_ok _ _ hpos, henc]
        · cases u
          refine ⟨e, ?_⟩
          unfold initChecks
          rw [positional_encoding_ok _ _ hpos, henc,
            layerStackCheck_of_err c.n_decoder_layers _ e he hn]
    · exact ⟨.shapeMismatch, by
        unfold initChecks
        rw [positional_encoding_err _ _ hpos]⟩
  constructor
  · intro he0 hd0 hediv hddiv
    unfold initChecks
    rw [layerStackCheck_of_ok _ _ (mhaInitCheck_ok _ _ he0 hediv),
      layerStackCheck_of_ok _ _ (mhaInitCheck_ok _ _ hd0 hddiv)]
    by_cases hpos : cosSliceOk c.embed_size
    · rw [positional_encoding_ok _ _ hpos, if_pos hpos]
    · rw [positional_encoding_err _ _ hpos, if_neg hpos]
  · exact initParamsCheck_ok_iff c

/-- A valid configuration: heads divide the embedding size on both sides. -/
def c8okCfg : TransformerConfig :=
  { n_encoder_layers := 1, n_decoder_layers := 1,
    n_encoder_heads := 2, n_decoder_heads := 2, embed_size := 4 }

/-- C8 witness: the amended theorem applied at a concrete divisible config. -/
theorem c8_indivisible_heads_error_witness :
    initChecks c8okCfg =
      if cosSliceOk c8okCfg.embed_size then initParamsCheck c8okCfg
      else .error .shapeMismatch :=
  (c8_indivisible_heads_error c8okCfg).2.1 (by decide) (by decide) (by decide)
    (by decide)

/-! ### C9: shape error on over-long sequences -/

/-- C9 (amended): when `max_len ≥ 2`, `encode` with a source longer than
`max_len` and `decode` with a target longer than `max_len` fail with an error
and return no result (the sliced positional table cannot broadcast). The
degenerate `max_len = 1` table broadcasts row 0 instead, so that case is
excluded. -/
theorem c9_overlong_sequence_error (m : Transformer) (hwf : WellFormed m)
    (hml : 2 ≤ m.config.max_len) :
    (∀ src msk, m.config.max_len < src.d1 → ∃ e, encode m src msk = .error e) ∧
    (∀ memory tgt msk, m.config.max_len < tgt.d1 →
      ∃ e, decode m memory tgt msk = .error e) := by
  have hpos : m.pos_enc.d0 = m.config.max_len := by
    rw [wellFormed_pos_enc m hwf]
    rfl
  constructor
  · intro src msk hlen
    refine ⟨.broadcastMismatch, ?_⟩
    have herr : posAdd m.pos_enc (scaledEmbedding m src) = .error .broadcastMismatch := by
      apply posAdd_err
      · rw [hpos]; exact hlen
      · rw [hpos]; exact hml
    unfold encode
    rw [herr]
  · intro memory tgt msk hlen
    refine ⟨.broadcastMismatch, ?_⟩
    have herr : posAdd m.pos_enc (scaledEmbedding m tgt) = .error .broadcastMismatch := by
      apply posAdd_err
      · rw [hpos]; exact hlen
      · rw [hpos]; exact hml
    unfold decode
    rw [herr]

/-- A tiny valid config with `max_len = 2`. -/
def c9Cfg : TransformerConfig :=
  { vocab_size := 2, n_encoder_layers := 1, n_decoder_layers := 1,
    n_encoder_heads := 1, n_decoder_heads := 1, embed_size := 2, d_ff := 2,
    max_len := 2 }

/-- A length-3 source (exceeding `max_len = 2`). -/
def src3 : NTensor2 := ⟨1, 3, fun _ _ => 0⟩

lemma wellFormed_buildBase_c9 : WellFormed (buildBase c9Cfg) :=
  ⟨rfl, by decide, rfl⟩

/-- C9 witness: the theorem applied to the constructed `c9Cfg` model and a
length-3 source/target. -/
theorem c9_overlong_sequence_error_witness :
    (∃ e, encode (buildBase c9Cfg) src3 none = .error e) ∧
    (∃ e, decode (buildBase c9Cfg)
        ⟨1, 3, 2, fun _ _ _ => 0⟩ src3 none = .error e) :=
  ⟨(c9_overlong_sequence_error (buildBase c9Cfg) wellFormed_buildBase_c9
      (by decide)).1 src3 none (by decide),
   (c9_overlong_sequence_error (buildBase c9Cfg) wellFormed_buildBase_c9
      (by decide)).2 ⟨1, 3, 2, fun _ _ _ => 0⟩ src3 none (by decide)⟩

/-- A config with `max_len = 1`, zero layers, even embedding size. -/
def c9DegenerateCfg : TransformerConfig :=
  { vocab_size := 2, n_encoder_layers := 0, n_decoder_layers := 0,
    n_encoder_heads := 1, n_decoder_heads := 1, embed_size := 2, d_ff := 2,
    max_len := 1 }

/-- A length-2 source (exceeding `max_len = 1`). -/
def src2 : NTensor2 := ⟨1, 2, fun _ _ => 0⟩

/-- C9 counterexample: with `max_len = 1` the sliced positional table has one
row, which broadcasts against any longer sequence, so `encode` on a length-2
source silently succeeds instead of failing. -/
theorem c9_counterexample :
    (buildBase c9DegenerateCfg).config.max_len < src2.d1 ∧
    (encode (buildBase c9DegenerateCfg) src2 none).isOk = true := by
  exact ⟨by decide, rfl⟩

/-! ### C10: even embedding size precondition of positional_encoding -/

/-- C10 (amended): for odd `embed_size ≥ 3` the cosine-column assignment has
mismatched shape, `positional_encoding` raises, and so does Transformer
construction for any config with that embedding size; when `embed_size` is
even — or in the degenerate `embed_size = 1` case, where the width-1 cosine
block broadcasts into the empty odd-column slice — the call succeeds and the
returned `(seq_len, embed_size)` table has `sin(pos * exp(-ln 10000 * 2i / E))`
in column `2i` and the matching cosine in column `2i + 1`. -/
theorem c10_positional_encoding_parity (seq_len embed_size : Nat) :
    (embed_size % 2 = 1 → 3 ≤ embed_size →
      positional_encoding seq_len embed_size = .error .shapeMismatch ∧
      ∀ c : TransformerConfig, c.embed_size = embed_size →
        initChecks c = .error .shapeMismatch) ∧
    (embed_size % 2 = 0 ∨ embed_size = 1 →
      positional_encoding seq_len embed_size = .ok (posTable seq_len embed_size) ∧
      (posTable seq_len embed_size).d0 = seq_len ∧
      (posTable seq_len embed_size).d1 = embed_size ∧
      ∀ p i : Nat,
        (posTable seq_len embed_size).ent p (2 * i) =
          Real.sin (p * Real.exp (-(Real.log 10000) * (2 * i) / embed_size)) ∧
        (posTable seq_len embed_size).ent p (2 * i + 1) =
          Real.cos (p * Real.exp (-(Real.log 10000) * (2 * i) / embed_size))) := by
  constructor
  · intro hodd h3
    have hnot : ¬ cosSliceOk embed_size := by
      unfold cosSliceOk
      omega
    refine ⟨by simp [positional_encoding, hnot], ?_⟩
    intro c hc
    have hpe : positional_encoding c.max_len c.embed_size = .error .shapeMismatch := by
      rw [hc]
      simp [positional_encoding, hnot]
    unfold initChecks
    rw [hpe]
  · intro heven
    have hok : cosSliceOk embed_size := by
      unfold cosSliceOk
      omega
    refine ⟨by simp [positional_encoding, hok], rfl, rfl, ?_⟩
    intro p i
    constructor
    · have h2 : (2 * i) % 2 = 0 := by omega
      simp [posTable, posDivTerm, h2]
    · have h2 : (2 * i + 1) % 2 = 1 := by omega
      simp [posTable, posDivTerm, h2]

/-- C10 counterexample: `embed_size = 1` is odd, yet `positional_encoding`
succeeds — the cosine source has width 1 and broadcasts into the empty
odd-column destination. -/
theorem c10_counterexample :
    (1 : Nat) % 2 = 1 ∧ (positional_encoding 2 1).isOk = true := by
  exact ⟨rfl, rfl⟩

/-- C10 witness: the amended theorem applied at `seq_len = 2`,
`embed_size = 3` (error branch) and `embed_size = 4` (success branch). -/
theorem c10_positional_encoding_parity_witness :
    positional_encoding 2 3 = .error .shapeMismatch ∧
    positional_encoding 2 4 = .ok (posTable 2 4) :=
  ⟨((c10_positional_encoding_parity 2 3).1 (by decide) (by decide)).1,
   ((c10_positional_encoding_parity 2 4).2 (Or.inl (by decide))).1⟩

/-! ### Dimension bookkeeping -/

lemma encLayerForward_dims (L : EncoderLayerP) (x : Tensor3) (mask : Option NTensor3) :
    (encLayerForward L x mask).d0 = x.d0 ∧ (encLayerForward L x mask).d1 = x.d1 ∧
    (encLayerForward L x mask).d2 = x.d2 := by
  unfold encLayerForward
  split <;> exact ⟨rfl, rfl, rfl⟩

lemma decLayerForward_dims (L : DecoderLayerP) (x memory : Tensor3)
    (cm : NTensor3) (em : Option NTensor3) :
    (decLayerForward L x memory cm em).d0 = x.d0 ∧
    (decLayerForward L x memory cm em).d1 = x.d1 ∧
    (decLayerForward L x memory cm em).d2 = x.d2 := by
  unfold decLayerForward
  split <;> exact ⟨rfl, rfl, rfl⟩

lemma foldlEnc_dims (layers : List EncoderLayerP) (x : Tensor3) (mask : Option NTensor3) :
    (layers.foldl (fun acc L => encLayerForward L acc mask) x).d0 = x.d0 ∧
    (layers.foldl (fun acc L => encLayerForward L acc mask) x).d1 = x.d1 ∧
    (layers.foldl (fun acc L => encLayerForward L acc mask) x).d2 = x.d2 := by
  induction layers generalizing x with
  | nil => exact ⟨rfl, rfl, rfl⟩
  | cons L rest ih =>
    simp only [List.foldl_cons]
    obtain ⟨h0, h1, h2⟩ := ih (encLayerForward L x mask)
    obtain ⟨g0, g1, g2⟩ := encLayerForward_dims L x mask
    exact ⟨h0.trans g0, h1.trans g1, h2.trans g2⟩

lemma foldlDec_dims (layers : List DecoderLayerP) (x memory : Tensor3)
    (cm : NTensor3) (em : Option NTensor3) :
    (layers.foldl (fun acc L => decLayerForward L acc memory cm em) x).d0 = x.d0 ∧
    (layers.foldl (fun acc L => decLayerForward L acc memory cm em) x).d1 = x.d1 ∧
    (layers.foldl (fun acc L => decLayerForward L acc memory cm em) x).d2 = x.d2 := by
  induction layers generalizing x with
  | nil => exact ⟨rfl, rfl, rfl⟩
  | cons L rest ih =>
    simp only [List.foldl_cons]
    obtain ⟨h0, h1, h2⟩ := ih (decLayerForward L x memory cm em)
    obtain ⟨g0, g1, g2⟩ := decLayerForward_dims L x memory cm em
    exact ⟨h0.trans g0, h1.trans g1, h2.trans g2⟩

lemma encoderForward_dims (enc : EncoderP) (x : Tensor3) (mask : Option NTensor3) :
    (encoderForward enc x mask).d0 = x.d0 ∧ (encoderForward enc x mask).d1 = x.d1 ∧
    (encoderForward enc x mask).d2 = x.d2 := by
  unfold encoderForward
  rcases hfl : enc.final_ln with _ | ln <;>
    simpa [hfl] using foldlEnc_dims enc.encoder_layers x mask

lemma decoderForward_dims (dec : DecoderP) (x memory : Tensor3) (em : Option NTensor3) :
    (decoderForward dec x memory em).d0 = x.d0 ∧
    (decoderForward dec x memory em).d1 = x.d1 ∧
    (decoderForward dec x memory em).d2 = x.d2 := by
  unfold decoderForward
  rcases hfl : dec.final_ln with _ | ln <;>
    simpa [hfl] using foldlDec_dims dec.decoder_layers x memory
      (unsqueeze0 (create_causal_mask x.d1)) em

/-! ### C1: shape law -/

/-- C1: for every batch size `B`, lengths `Ls, Lt ≤ max_len`, token inputs of
shapes `(B, Ls)` and `(B, Lt)` with in-range ids, and optional `(B, Ls)`
padding mask, `forward` succeeds and returns a tensor of shape exactly
`(B, Lt, vocab_size)`. -/
theorem c1_shape_law (m : Transformer) (hwf : WellFormed m) (B Ls Lt : Nat)
    (src tgt : NTensor2) (msk : Option NTensor2)
    (hs0 : src.d0 = B) (hs1 : src.d1 = Ls) (ht0 : tgt.d0 = B) (ht1 : tgt.d1 = Lt)
    (hLs : Ls ≤ m.config.max_len) (hLt : Lt ≤ m.config.max_len)
    (hsrcids : ∀ b l, b < B → l < Ls → src.ent b l < m.config.vocab_size)
    (htgtids : ∀ b l, b < B → l < Lt → tgt.ent b l < m.config.vocab_size)
    (hmsk : ∀ mk, msk = some mk → mk.d0 = B ∧ mk.d1 = Ls) :
    ∃ y, forward m src tgt msk = .ok y ∧
      y.d0 = B ∧ y.d1 = Lt ∧ y.d2 = m.config.vocab_size := by
  have hp0 : m.pos_enc.d0 = m.config.max_len := by
    rw [wellFormed_pos_enc m hwf]
    rfl
  have hps : posAdd m.pos_enc (scaledEmbedding m src) =
      .ok ⟨(scaledEmbedding m src).d0, (scaledEmbedding m src).d1,
        (scaledEmbedding m src).d2,
        fun b l e => (scaledEmbedding m src).ent b l e + m.pos_enc.ent l e⟩ := by
    apply posAdd_ok_of_le
    show src.d1 ≤ m.pos_enc.d0
    rw [hp0, hs1]
    exact hLs
  have hpt : posAdd m.pos_enc (scaledEmbedding m tgt) =
      .ok ⟨(scaledEmbedding m tgt).d0, (scaledEmbedding m tgt).d1,
        (scaledEmbedding m tgt).d2,
        fun b l e => (scaledEmbedding m tgt).ent b l e + m.pos_enc.ent l e⟩ := by
    apply posAdd_ok_of_le
    show tgt.d1 ≤ m.pos_enc.d0
    rw [hp0, ht1]
    exact hLt
  unfold forward encode decode
  rw [hps, hpt]
  refine ⟨_, rfl, ?_, ?_, ?_⟩
  · show (decoderForward m.decoder _ _ _).d0 = B
    rw [(decoderForward_dims _ _ _ _).1]
    exact ht0
  · show (decoderForward m.decoder _ _ _).d1 = Lt
    rw [(decoderForward_dims _ _ _ _).2.1]
    exact ht1
  · exact wellFormed_fc_outF m hwf

/-- A `(1, 1)` all-zero token tensor. -/
def tok11 : NTensor2 := ⟨1, 1, fun _ _ => 0⟩

/-- C1 witness: the shape law applied to the constructed `c9Cfg` model with
`B = Ls = Lt = 1` and no mask. -/
theorem c1_shape_law_witness :
    ∃ y, forward (buildBase c9Cfg) tok11 tok11 none = .ok y ∧
      y.d0 = 1 ∧ y.d1 = 1 ∧ y.d2 = (buildBase c9Cfg).config.vocab_size :=
  c1_shape_law (buildBase c9Cfg) wellFormed_buildBase_c9 1 1 1 tok11 tok11 none
    rfl rfl rfl rfl (by decide) (by decide)
    (fun _ _ _ _ => Nat.succ_pos 1) (fun _ _ _ _ => Nat.succ_pos 1)
    (fun _ h => nomatch h)

/-! ### C6: persistence round trip -/

lemma fromDict_asdict (c : TransformerConfig) : fromDict (asdict c) = some c := rfl

/-- C6: for every constructed Transformer, `save_pretrained` then
`from_pretrained` yields a model with an identical config and identical weight
values, hence identical `forward` output on any fixed input (evaluation-mode
semantics is deterministic). -/
theorem c6_persistence_round_trip (m : Transformer) (hwf : WellFormed m) :
    ∃ m2, from_pretrained (save_pretrained m) = .ok m2 ∧
      m2.config = m.config ∧ stateDict m2 = stateDict m ∧
      ∀ src tgt msk, forward m2 src tgt msk = forward m src tgt msk := by
  refine ⟨m, ?_, rfl, rfl, fun _ _ _ => rfl⟩
  show from_pretrained (asdict m.config, stateDict m) = .ok m
  simp only [from_pretrained, fromDict_asdict, hwf.1, hwf.2.1, if_true]
  exact congrArg Except.ok hwf.2.2

/-- C6 witness: the round trip applied to the constructed `c9Cfg` model. -/
theorem c6_persistence_round_trip_witness :
    ∃ m2, from_pretrained (save_pretrained (buildBase c9Cfg)) = .ok m2 ∧
      m2.config = (buildBase c9Cfg).config ∧
      stateDict m2 = stateDict (buildBase c9Cfg) ∧
      ∀ src tgt msk, forward m2 src tgt msk = forward (buildBase c9Cfg) src tgt msk :=
  c6_persistence_round_trip (buildBase c9Cfg) wellFormed_buildBase_c9

/-! ### C7: scale by √embed_size -/

/-- C7: in both `encode` and `decode` the embedded token tensor just before
the positional rows are added (`scaledEmbedding`, the argument of `posAdd` in
both definitions) equals the raw embedding lookup multiplied elementwise by
`√embed_size`. -/
theorem c7_scale_by_sqrt_embed (m : Transformer) (hwf : WellFormed m)
    (ids : NTensor2) (b l e : Nat) :
    (scaledEmbedding m ids).ent b l e =
      m.embeddings.weight (ids.ent b l) e * Real.sqrt m.config.embed_size := by
  show m.embeddings.weight (ids.ent b l) e * m.sqrt_dmodel = _
  rw [wellFormed_sqrt_dmodel m hwf]

/-- C7 witness: applied to the constructed `c9Cfg` model at entry
`(0, 0, 0)`. -/
theorem c7_scale_by_sqrt_embed_witness :
    (scaledEmbedding (buildBase c9Cfg) tok11).ent 0 0 0 =
      (buildBase c9Cfg).embeddings.weight (tok11.ent 0 0) 0 *
        Real.sqrt (buildBase c9Cfg).config.embed_size :=
  c7_scale_by_sqrt_embed (buildBase c9Cfg) wellFormed_buildBase_c9 tok11 0 0 0

/-! ### Row-level views of the pointwise operations

Every sub-layer except attention acts independently on each `(batch, position)`
row; these row functions make that explicit and are definitionally equal to the
tensor-level operations. -/

def linRow (L : Linear) (r : Nat → ℝ) : Nat → ℝ := fun o =>
  (∑ j ∈ Finset.range L.inF, r j * L.weight o j) + L.bias o

lemma linear3_row (L : Linear) (x : Tensor3) (b l : Nat) :
    (linear3 L x).ent b l = linRow L (x.ent b l) := rfl

def lnRow (p : LayerNormP) (r : Nat → ℝ) : Nat → ℝ := fun e =>
  let mean := (∑ j ∈ Finset.range p.dim, r j) / p.dim
  let varb := (∑ j ∈ Finset.range p.dim, (r j - mean) ^ 2) / p.dim
  p.weight e * ((r e - mean) / Real.sqrt (varb + lnEps)) + p.bias e

lemma layerNorm3_row (p : LayerNormP) (x : Tensor3) (b l : Nat) :
    (layerNorm3 p x).ent b l = lnRow p (x.ent b l) := rfl

def ffRow (f : FeedForwardP) (r : Nat → ℝ) : Nat → ℝ :=
  linRow f.lin2 fun e => max (linRow f.lin1 r e) 0

lemma ffForward_row (f : FeedForwardP) (x : Tensor3) (b l : Nat) :
    (ffForward f x).ent b l = ffRow f (x.ent b l) := rfl

lemma addT_row (a c : Tensor3) (b l : Nat) :
    (addT a c).ent b l = fun e => a.ent b l e + c.ent b l e := rfl

lemma splitHeads_ent (p : MHAP) (x : Tensor3) (b g l t : Nat) :
    (splitHeads p x).ent b g l t = x.ent b l (g * p.head_dim + t) := rfl

lemma splitHeads_d2 (p : MHAP) (x : Tensor3) : (splitHeads p x).d2 = x.d1 := rfl

lemma splitHeads_d3 (p : MHAP) (x : Tensor3) : (splitHeads p x).d3 = p.head_dim := rfl

lemma linear3_d1 (L : Linear) (x : Tensor3) : (linear3 L x).d1 = x.d1 := rfl

lemma sdpa_ent (q k v : Tensor4) (mask : Option NTensor3) (b g i t : Nat) :
    (sdpa q k v mask).ent b g i t =
      ∑ j ∈ Finset.range k.d2, sdpaWeight q k mask b g i j * v.ent b g j t := rfl

lemma mhaForward_ent (p : MHAP) (q k v : Tensor3) (mask : Option NTensor3) (b l : Nat) :
    (mhaForward p q k v mask).ent b l =
      linRow p.proj fun e =>
        (sdpa (splitHeads p (linear3 p.q_weights q))
            (splitHeads p (linear3 p.k_weights k))
            (splitHeads p (linear3 p.v_weights v)) mask).ent
          b (e / p.head_dim) l (e % p.head_dim) := rfl

/-! ### Mask characterizations -/

lemma bcIdx_lt {d i : Nat} (h : i < d) : bcIdx d i = i := by
  unfold bcIdx
  split
  · omega
  · rfl

lemma maskVal_causal (L b i j : Nat) (hi : i < L) (hj : j < L) :
    maskVal (unsqueeze0 (create_causal_mask L)) b i j = if j ≤ i then 1 else 0 := by
  show (create_causal_mask L).ent (bcIdx L i) (bcIdx L j) = _
  rw [bcIdx_lt hi, bcIdx_lt hj]
  simp [create_causal_mask, tril, onesN]

lemma maskVal_pad (pm : NTensor2) (b i j : Nat) (hb : b < pm.d0) (hj : j < pm.d1) :
    maskVal (pad3 pm) b i j = pm.ent b j := by
  show pm.ent (bcIdx pm.d0 b) (bcIdx pm.d1 j) = _
  rw [bcIdx_lt hb, bcIdx_lt hj]

/-- Whether attention query `(b, i)` can see key `j` under the optional mask. -/
def keyVisible (mask : Option NTensor3) (b i j : Nat) : Prop :=
  match mask with
  | none => True
  | some m3 => maskVal m3 b i j ≠ 0

/-! ### The master attention congruence lemma

All noninterference arguments reduce to this: if the query row `(b, l)` of two
runs agrees and the key/value rows agree at every key the mask lets query
`(b, l)` see, then the attention output row `(b, l)` agrees — the softmax
denominator only sums visible keys, and invisible keys enter the output with
weight 0. -/

theorem mhaForward_congr (p : MHAP) (q q2 kv kv2 : Tensor3)
    (mask : Option NTensor3) (hkv1 : kv2.d1 = kv.d1) (b l : Nat)
    (hq : q.ent b l = q2.ent b l)
    (hkv : ∀ j, j < kv.d1 → keyVisible mask b l j → kv.ent b j = kv2.ent b j) :
    (mhaForward p q kv kv mask).ent b l = (mhaForward p q2 kv2 kv2 mask).ent b l := by
  simp only [mhaForward_ent]
  apply congrArg (linRow p.proj)
  funext e
  generalize e / p.head_dim = g
  generalize e % p.head_dim = t
  simp only [sdpa_ent, splitHeads_d2, linear3_d1, hkv1]
  have hq4 : ∀ g t, (splitHeads p (linear3 p.q_weights q)).ent b g l t =
      (splitHeads p (linear3 p.q_weights q2)).ent b g l t := by
    intro g t
    rw [splitHeads_ent, splitHeads_ent, linear3_row, linear3_row, hq]
  have hk4 : ∀ j, j < kv.d1 → keyVisible mask b l j → ∀ g t,
      (splitHeads p (linear3 p.k_weights kv)).ent b g j t =
      (splitHeads p (linear3 p.k_weights kv2)).ent b g j t := by
    intro j hj hvis g t
    rw [splitHeads_ent, splitHeads_ent, linear3_row, linear3_row, hkv j hj hvis]
  have hv4 : ∀ j, j < kv.d1 → keyVisible mask b l j → ∀ g t,
      (splitHeads p (linear3 p.v_weights kv)).ent b g j t =
      (splitHeads p (linear3 p.v_weights kv2)).ent b g j t := by
    intro j hj hvis g t
    rw [splitHeads_ent, splitHeads_ent, linear3_row, linear3_row, hkv j hj hvis]
  have hscore : ∀ g j, j < kv.d1 → keyVisible mask b l j →
      sdpaScore (splitHeads p (linear3 p.q_weights q))
        (splitHeads p (linear3 p.k_weights kv)) b g l j =
      sdpaScore (splitHeads p (linear3 p.q_weights q2))
        (splitHeads p (linear3 p.k_weights kv2)) b g l j := by
    intro g j hj hvis
    unfold sdpaScore
    simp only [splitHeads_d3]
    congr 1
    exact Finset.sum_congr rfl fun t _ => by rw [hq4, hk4 j hj hvis]
  have hweight : ∀ g j, j < kv.d1 →
      sdpaWeight (splitHeads p (linear3 p.q_weights q))
        (splitHeads p (linear3 p.k_weights kv)) mask b g l j =
      sdpaWeight (splitHeads p (linear3 p.q_weights q2))
        (splitHeads p (linear3 p.k_weights kv2)) mask b g l j := by
    intro g j hj
    rcases mask with _ | m3
    · simp only [sdpaWeight, splitHeads_d2, linear3_d1, hkv1]
      rw [hscore g j hj trivial]
      congr 1
      exact Finset.sum_congr rfl fun j2 hj2 => by
        rw [hscore g j2 (Finset.mem_range.mp hj2) trivial]
    · simp only [sdpaWeight]
      by_cases hz : maskVal m3 b l j = 0
      · rw [if_pos hz, if_pos hz]
      · rw [if_neg hz, if_neg hz, hscore g j hj hz]
        congr 1
        simp only [splitHeads_d2, linear3_d1, hkv1]
        refine Finset.sum_congr rfl fun j2 hj2 => ?_
        by_cases hz2 : maskVal m3 b l j2 = 0
        · rw [if_pos hz2, if_pos hz2]
        · rw [if_neg hz2, if_neg hz2, hscore g j2 (Finset.mem_range.mp hj2) hz2]
  refine Finset.sum_congr rfl fun j hj => ?_
  have hj' : j < kv.d1 := Finset.mem_range.mp hj
  rcases mask with _ | m3
  · rw [hweight g j hj', hv4 j hj' trivial]
  · by_cases hz : maskVal m3 b l j = 0
    · show (if maskVal m3 b l j = 0 then (0 : ℝ) else _) * _ =
        (if maskVal m3 b l j = 0 then (0 : ℝ) else _) * _
      rw [if_pos hz, if_pos hz, zero_mul, zero_mul]
    · rw [hweight g j hj', hv4 j hj' hz]

/-! ### Row congruence for the pointwise sub-layers -/

lemma row_add_congr {x x2 w w2 : Tensor3} {b l : Nat}
    (hx : x.ent b l = x2.ent b l) (hw : w.ent b l = w2.ent b l) :
    (addT x w).ent b l = (addT x2 w2).ent b l := by
  rw [addT_row, addT_row]
  funext e
  rw [congrFun hx e, congrFun hw e]

lemma row_ln_congr (p : LayerNormP) {x x2 : Tensor3} {b l : Nat}
    (h : x.ent b l = x2.ent b l) :
    (layerNorm3 p x).ent b l = (layerNorm3 p x2).ent b l := by
  rw [layerNorm3_row, layerNorm3_row, h]

lemma row_ff_congr (f : FeedForwardP) {x x2 : Tensor3} {b l : Nat}
    (h : x.ent b l = x2.ent b l) :
    (ffForward f x).ent b l = (ffForward f x2).ent b l := by
  rw [ffForward_row, ffForward_row, h]

lemma scaledEmbedding_row (m : Transformer) (ids : NTensor2) (b l : Nat) :
    (scaledEmbedding m ids).ent b l =
      fun e => m.embeddings.weight (ids.ent b l) e * m.sqrt_dmodel := rfl

/-! ### posAdd and encode/decode inversion -/

lemma posAdd_dims (tbl : Tensor2) (x te : Tensor3) (h : posAdd tbl x = .ok te) :
    te.d0 = x.d0 ∧ te.d1 = x.d1 ∧ te.d2 = x.d2 := by
  unfold posAdd at h
  split_ifs at h with h1 h2
  · cases h
    exact ⟨rfl, rfl, rfl⟩
  · cases h
    exact ⟨rfl, rfl, rfl⟩

lemma posAdd_row_congr (tbl : Tensor2) (x x2 te te2 : Tensor3)
    (hd1 : x2.d1 = x.d1) (hpa : posAdd tbl x = .ok te)
    (hpa2 : posAdd tbl x2 = .ok te2) (b l : Nat)
    (hrow : x.ent b l = x2.ent b l) : te.ent b l = te2.ent b l := by
  unfold posAdd at hpa hpa2
  rw [hd1] at hpa2
  split_ifs at hpa hpa2 with h1 h2
  · cases hpa
    cases hpa2
    funext e
    show x.ent b l e + tbl.ent l e = x2.ent b l e + tbl.ent l e
    rw [congrFun hrow e]
  · cases hpa
    cases hpa2
    funext e
    show x.ent b l e + tbl.ent 0 e = x2.ent b l e + tbl.ent 0 e
    rw [congrFun hrow e]

lemma decode_ok (m : Transformer) (memory : Tensor3) (tgt : NTensor2)
    (sm : Option NTensor3) (y : Tensor3) (h : decode m memory tgt sm = .ok y) :
    ∃ te, posAdd m.pos_enc (scaledEmbedding m tgt) = .ok te ∧
      y = linear3 m.fc (decoderForward m.decoder (dropoutEval te) memory sm) := by
  unfold decode at h
  rcases hpa : posAdd m.pos_enc (scaledEmbedding m tgt) with e1 | te
  · rw [hpa] at h
    exact absurd h (by simp)
  · rw [hpa] at h
    refine ⟨te, rfl, ?_⟩
    injection h with h2
    exact h2.symm

lemma encode_ok (m : Transformer) (src : NTensor2) (sm : Option NTensor2)
    (pr : Tensor3 × Option NTensor3) (h : encode m src sm = .ok pr) :
    ∃ te, posAdd m.pos_enc (scaledEmbedding m src) = .ok te ∧
      pr = (encoderForward m.encoder (dropoutEval te) (sm.map pad3), sm.map pad3) := by
  unfold encode at h
  rcases hpa : posAdd m.pos_enc (scaledEmbedding m src) with e1 | te
  · rw [hpa] at h
    exact absurd h (by simp)
  · rw [hpa] at h
    refine ⟨te, rfl, ?_⟩
    injection h with h2
    exact h2.symm

/-! ### C2: causal-mask key visibility and decoder congruence -/

lemma causal_keyVisible (Lt b l j : Nat) (hl : l < Lt) (hj : j < Lt)
    (hvis : keyVisible (some (unsqueeze0 (create_causal_mask Lt))) b l j) :
    j ≤ l := by
  have hvis2 : maskVal (unsqueeze0 (create_causal_mask Lt)) b l j ≠ 0 := hvis
  rw [maskVal_causal Lt b l j hl hj] at hvis2
  by_cases hle : j ≤ l
  · exact hle
  · rw [if_neg hle] at hvis2
    omega

lemma decLayer_causal_congr (L : DecoderLayerP) (x x2 memory : Tensor3)
    (em : Option NTensor3) (i Lt : Nat) (hx1 : x.d1 = Lt) (hx21 : x2.d1 = Lt)
    (hag : ∀ b l, l < Lt → l ≤ i → x.ent b l = x2.ent b l) (b l : Nat)
    (hl : l < Lt) (hli : l ≤ i) :
    (decLayerForward L x memory (unsqueeze0 (create_causal_mask Lt)) em).ent b l =
    (decLayerForward L x2 memory (unsqueeze0 (create_causal_mask Lt)) em).ent b l := by
  have hmmha : ∀ (y y2 : Tensor3), y.d1 = Lt → y2.d1 = Lt →
      (∀ b l, l < Lt → l ≤ i → y.ent b l = y2.ent b l) →
      ∀ b l, l < Lt → l ≤ i →
      (mhaForward L.mmha y y y (some (unsqueeze0 (create_causal_mask Lt)))).ent b l =
      (mhaForward L.mmha y2 y2 y2 (some (unsqueeze0 (create_causal_mask Lt)))).ent b l := by
    intro y y2 hy1 hy21 hyag b2 l2 hl2 hli2
    apply mhaForward_congr L.mmha y y2 y y2 _ (by rw [hy1, hy21]) b2 l2
      (hyag b2 l2 hl2 hli2)
    intro j hj hvis
    have hjLt : j < Lt := by rw [hy1] at hj; exact hj
    have hjl : j ≤ l2 := causal_keyVisible Lt b2 l2 j hl2 hjLt hvis
    exact hyag b2 j hjLt (le_trans hjl hli2)
  unfold decLayerForward
  by_cases hpl : L.post_ln = true
  · simp only [hpl, if_true, dropoutEval]
    have h1 : ∀ b l, l < Lt → l ≤ i →
        (layerNorm3 L.ln1 (addT x (mhaForward L.mmha x x x
            (some (unsqueeze0 (create_causal_mask Lt)))))).ent b l =
        (layerNorm3 L.ln1 (addT x2 (mhaForward L.mmha x2 x2 x2
            (some (unsqueeze0 (create_causal_mask Lt)))))).ent b l := by
      intro b2 l2 hl2 hli2
      exact row_ln_congr L.ln1 (row_add_congr (hag b2 l2 hl2 hli2)
        (hmmha x x2 hx1 hx21 hag b2 l2 hl2 hli2))
    have h2 : ∀ b l, l < Lt → l ≤ i →
        (layerNorm3 L.ln2 (addT
            (layerNorm3 L.ln1 (addT x (mhaForward L.mmha x x x
              (some (unsqueeze0 (create_causal_mask Lt))))))
            (mhaForward L.mha
              (layerNorm3 L.ln1 (addT x (mhaForward L.mmha x x x
                (some (unsqueeze0 (create_causal_mask Lt)))))) memory memory em))).ent b l =
        (layerNorm3 L.ln2 (addT
            (layerNorm3 L.ln1 (addT x2 (mhaForward L.mmha x2 x2 x2
              (some (unsqueeze0 (create_causal_mask Lt))))))
            (mhaForward L.mha
              (layerNorm3 L.ln1 (addT x2 (mhaForward L.mmha x2 x2 x2
                (some (unsqueeze0 (create_causal_mask Lt)))))) memory memory em))).ent b l := by
      intro b2 l2 hl2 hli2
      refine row_ln_congr L.ln2 (row_add_congr (h1 b2 l2 hl2 hli2) ?_)
      exact mhaForward_congr L.mha _ _ memory memory em rfl b2 l2
        (h1 b2 l2 hl2 hli2) (fun _ _ _ => rfl)
    exact row_ln_congr L.ln3 (row_add_congr (h2 b l hl hli)
      (row_ff_congr L.ff (h2 b l hl hli)))
  · simp only [hpl, if_false, dropoutEval]
    have hxln : ∀ b l, l < Lt → l ≤ i →
        (layerNorm3 L.ln1 x).ent b l = (layerNorm3 L.ln1 x2).ent b l := by
      intro b2 l2 hl2 hli2
      exact row_ln_congr L.ln1 (hag b2 l2 hl2 hli2)
    have h1 : ∀ b l, l < Lt → l ≤ i →
        (addT x (mhaForward L.mmha (layerNorm3 L.ln1 x) (layerNorm3 L.ln1 x)
            (layerNorm3 L.ln1 x) (some (unsqueeze0 (create_causal_mask Lt))))).ent b l =
        (addT x2 (mhaForward L.mmha (layerNorm3 L.ln1 x2) (layerNorm3 L.ln1 x2)
            (layerNorm3 L.ln1 x2) (some (unsqueeze0 (create_causal_mask Lt))))).ent b l := by
      intro b2 l2 hl2 hli2
      exact row_add_congr (hag b2 l2 hl2 hli2)
        (hmmha (layerNorm3 L.ln1 x) (layerNorm3 L.ln1 x2) hx1 hx21 hxln b2 l2 hl2 hli2)
    have h2 : ∀ b l, l < Lt → l ≤ i →
        (addT (addT x (mhaForward L.mmha (layerNorm3 L.ln1 x) (layerNorm3 L.ln1 x)
              (layerNorm3 L.ln1 x) (some (unsqueeze0 (create_causal_mask Lt)))))
            (mhaForward L.mha
              (layerNorm3 L.ln2 (addT x (mhaForward L.mmha (layerNorm3 L.ln1 x)
                (layerNorm3 L.ln1 x) (layerNorm3 L.ln1 x)
                (some (unsqueeze0 (create_causal_mask Lt))))))
              memory memory em)).ent b l =
        (addT (addT x2 (mhaForward L.mmha (layerNorm3 L.ln1 x2) (layerNorm3 L.ln1 x2)
              (layerNorm3 L.ln1 x2) (some (unsqueeze0 (create_causal_mask Lt)))))
            (mhaForward L.mha
              (layerNorm3 L.ln2 (addT x2 (mhaForward L.mmha (layerNorm3 L.ln1 x2)
                (layerNorm3 L.ln1 x2) (layerNorm3 L.ln1 x2)
                (some (unsqueeze0 (create_causal_mask Lt))))))
              memory memory em)).ent b l := by
      intro b2 l2 hl2 hli2
      refine row_add_congr (h1 b2 l2 hl2 hli2) ?_
      exact mhaForward_congr L.mha _ _ memory memory em rfl b2 l2
        (row_ln_congr L.ln2 (h1 b2 l2 hl2 hli2)) (fun _ _ _ => rfl)
    exact row_add_congr (h2 b l hl hli)
      (row_ff_congr L.ff (row_ln_congr L.ln3 (h2 b l hl hli)))

lemma decFold_causal_congr (layers : List DecoderLayerP) (memory : Tensor3)
    (em : Option NTensor3) (i Lt : Nat) :
    ∀ x x2 : Tensor3, x.d1 = Lt → x2.d1 = Lt →
    (∀ b l, l < Lt → l ≤ i → x.ent b l = x2.ent b l) →
    ∀ b l, l < Lt → l ≤ i →
    (layers.foldl (fun acc L => decLayerForward L acc memory
        (unsqueeze0 (create_causal_mask Lt)) em) x).ent b l =
    (layers.foldl (fun acc L => decLayerForward L acc memory
        (unsqueeze0 (create_causal_mask Lt)) em) x2).ent b l := by
  induction layers with
  | nil => intro x x2 _ _ hag b l hl hli; exact hag b l hl hli
  | cons L rest ih =>
    intro x x2 hx1 hx21 hag b l hl hli
    simp only [List.foldl_cons]
    refine ih _ _ ?_ ?_ ?_ b l hl hli
    · exact (decLayerForward_dims L x memory _ em).2.1.trans hx1
    · exact (decLayerForward_dims L x2 memory _ em).2.1.trans hx21
    · intro b2 l2 hl2 hli2
      exact decLayer_causal_congr L x x2 memory em i Lt hx1 hx21 hag b2 l2 hl2 hli2

lemma decoderForward_causal_congr (dec : DecoderP) (x x2 memory : Tensor3)
    (em : Option NTensor3) (i : Nat) (hd1 : x2.d1 = x.d1)
    (hag : ∀ b l, l < x.d1 → l ≤ i → x.ent b l = x2.ent b l)
    (b l : Nat) (hl : l < x.d1) (hli : l ≤ i) :
    (decoderForward dec x memory em).ent b l =
    (decoderForward dec x2 memory em).ent b l := by
  unfold decoderForward
  rw [hd1]
  have hfold := decFold_causal_congr dec.decoder_layers memory em i x.d1 x x2
    rfl hd1 hag b l hl hli
  rcases hfl : dec.final_ln with _ | ln
  · simp only [hfl]
    exact hfold
  · simp only [hfl]
    exact row_ln_congr ln hfold

/-- C2: with dropout disabled (evaluation-mode semantics), for any fixed
memory/source and any two equal-length target sequences agreeing at positions
`0..i`, the logits `decode`/`forward` produce at target position `i` are
identical — target ids strictly after `i` never influence position `i`. -/
theorem c2_causal_noninterference (m : Transformer) (tgt tgt2 : NTensor2)
    (i : Nat) (hd0 : tgt2.d0 = tgt.d0) (hd1 : tgt2.d1 = tgt.d1)
    (hi : i < tgt.d1)
    (hag : ∀ b k, k ≤ i → tgt.ent b k = tgt2.ent b k) :
    (∀ memory sm y y2, decode m memory tgt sm = .ok y →
      decode m memory tgt2 sm = .ok y2 → ∀ b e, y.ent b i e = y2.ent b i e) ∧
    (∀ src sm z z2, forward m src tgt sm = .ok z →
      forward m src tgt2 sm = .ok z2 → ∀ b e, z.ent b i e = z2.ent b i e) := by
  have hdec : ∀ memory sm y y2, decode m memory tgt sm = .ok y →
      decode m memory tgt2 sm = .ok y2 → ∀ b e, y.ent b i e = y2.ent b i e := by
    intro memory sm y y2 hy hy2 b e
    obtain ⟨te, hpa, hyeq⟩ := decode_ok m memory tgt sm y hy
    obtain ⟨te2, hpa2, hy2eq⟩ := decode_ok m memory tgt2 sm y2 hy2
    subst hyeq
    subst hy2eq
    have hte1 : te.d1 = tgt.d1 := (posAdd_dims _ _ _ hpa).2.1
    have hte21 : te2.d1 = tgt2.d1 := (posAdd_dims _ _ _ hpa2).2.1
    have hrow : ∀ b2 l, l < te.d1 → l ≤ i → te.ent b2 l = te2.ent b2 l := by
      intro b2 l _ hli
      refine posAdd_row_congr m.pos_enc _ _ _ _ ?_ hpa hpa2 b2 l ?_
      · show tgt2.d1 = tgt.d1
        exact hd1
      · rw [scaledEmbedding_row, scaledEmbedding_row, hag b2 l hli]
    have hdf := decoderForward_causal_congr m.decoder (dropoutEval te)
      (dropoutEval te2) memory sm i
      (by show te2.d1 = te.d1; rw [hte21, hd1, hte1]) hrow b i
      (by show i < te.d1; rw [hte1]; exact hi) le_rfl
    show (linear3 m.fc _).ent b i e = (linear3 m.fc _).ent b i e
    rw [linear3_row, linear3_row, hdf]
  refine ⟨hdec, ?_⟩
  intro src sm z z2 hz hz2
  unfold forward at hz hz2
  rcases henc : encode m src sm with e1 | pr
  · rw [henc] at hz
    exact absurd hz (by simp)
  · rw [henc] at hz hz2
    rcases pr with ⟨memory, mask3⟩
    exact hdec memory mask3 z z2 hz hz2

/-- Two `(1, 2)` target sequences agreeing at position 0 and differing
at position 1. -/
def tgtA : NTensor2 := ⟨1, 2, fun _ _ => 0⟩

def tgtB : NTensor2 := ⟨1, 2, fun _ k => if k = 0 then 0 else 1⟩

/-- A `(1, 1, 2)` memory tensor. -/
def memW : Tensor3 := ⟨1, 1, 2, fun _ _ _ => 0⟩

/-- C2 witness: the theorem applied to the constructed `c9Cfg` model at
position `i = 0` with targets differing only at position 1. -/
theorem c2_causal_noninterference_witness :
    (∀ memory sm y y2, decode (buildBase c9Cfg) memory tgtA sm = .ok y →
      decode (buildBase c9Cfg) memory tgtB sm = .ok y2 →
      ∀ b e, y.ent b 0 e = y2.ent b 0 e) ∧
    (∀ src sm z z2, forward (buildBase c9Cfg) src tgtA sm = .ok z →
      forward (buildBase c9Cfg) src tgtB sm = .ok z2 →
      ∀ b e, z.ent b 0 e = z2.ent b 0 e) :=
  c2_causal_noninterference (buildBase c9Cfg) tgtA tgtB 0 rfl rfl (by decide)
    (fun b k hk => by
      have h0 : k = 0 := Nat.le_zero.mp hk
      subst h0
      rfl)

/-! ### C4: padding-mask noninterference -/

lemma pad_keyVisible (pm : NTensor2) (b l j : Nat) (hb : b < pm.d0)
    (hj : j < pm.d1) (hvis : keyVisible (some (pad3 pm)) b l j) :
    pm.ent b j ≠ 0 := by
  have hvis2 : maskVal (pad3 pm) b l j ≠ 0 := hvis
  rwa [maskVal_pad pm b l j hb hj] at hvis2

lemma encLayer_pad_congr (L : EncoderLayerP) (x x2 : Tensor3) (pm : NTensor2)
    (hx1 : x.d1 = pm.d1) (hx21 : x2.d1 = pm.d1)
    (hag : ∀ b l, b < pm.d0 → l < pm.d1 → pm.ent b l ≠ 0 → x.ent b l = x2.ent b l)
    (b l : Nat) (hb : b < pm.d0) (hl : l < pm.d1) (hnz : pm.ent b l ≠ 0) :
    (encLayerForward L x (some (pad3 pm))).ent b l =
    (encLayerForward L x2 (some (pad3 pm))).ent b l := by
  have hmha : ∀ (y y2 : Tensor3), y.d1 = pm.d1 → y2.d1 = pm.d1 →
      (∀ b l, b < pm.d0 → l < pm.d1 → pm.ent b l ≠ 0 → y.ent b l = y2.ent b l) →
      ∀ b l, b < pm.d0 → l < pm.d1 → pm.ent b l ≠ 0 →
      (mhaForward L.mha y y y (some (pad3 pm))).ent b l =
      (mhaForward L.mha y2 y2 y2 (some (pad3 pm))).ent b l := by
    intro y y2 hy1 hy21 hyag b2 l2 hb2 hl2 hnz2
    apply mhaForward_congr L.mha y y2 y y2 _ (by rw [hy1, hy21]) b2 l2
      (hyag b2 l2 hb2 hl2 hnz2)
    intro j hj hvis
    have hjp : j < pm.d1 := by rw [hy1] at hj; exact hj
    exact hyag b2 j hb2 hjp (pad_keyVisible pm b2 l2 j hb2 hjp hvis)
  unfold encLayerForward
  by_cases hpl : L.post_ln = true
  · simp only [hpl, if_true, dropoutEval]
    have h1 : ∀ b2 l2, b2 < pm.d0 → l2 < pm.d1 → pm.ent b2 l2 ≠ 0 →
        (layerNorm3 L.ln1 (addT x (mhaForward L.mha x x x (some (pad3 pm))))).ent b2 l2 =
        (layerNorm3 L.ln1 (addT x2 (mhaForward L.mha x2 x2 x2 (some (pad3 pm))))).ent b2 l2 := by
      intro b2 l2 hb2 hl2 hnz2
      exact row_ln_congr L.ln1 (row_add_congr (hag b2 l2 hb2 hl2 hnz2)
        (hmha x x2 hx1 hx21 hag b2 l2 hb2 hl2 hnz2))
    exact row_ln_congr L.ln2 (row_add_congr (h1 b l hb hl hnz)
      (row_ff_congr L.ff (h1 b l hb hl hnz)))
  · simp only [hpl, if_false, dropoutEval]
    have hxln : ∀ b2 l2, b2 < pm.d0 → l2 < pm.d1 → pm.ent b2 l2 ≠ 0 →
        (layerNorm3 L.ln1 x).ent b2 l2 = (layerNorm3 L.ln1 x2).ent b2 l2 := by
      intro b2 l2 hb2 hl2 hnz2
      exact row_ln_congr L.ln1 (hag b2 l2 hb2 hl2 hnz2)
    have h1 : ∀ b2 l2, b2 < pm.d0 → l2 < pm.d1 → pm.ent b2 l2 ≠ 0 →
        (addT x (mhaForward L.mha (layerNorm3 L.ln1 x) (layerNorm3 L.ln1 x)
          (layerNorm3 L.ln1 x) (some (pad3 pm)))).ent b2 l2 =
        (addT x2 (mhaForward L.mha (layerNorm3 L.ln1 x2) (layerNorm3 L.ln1 x2)
          (layerNorm3 L.ln1 x2) (some (pad3 pm)))).ent b2 l2 := by
      intro b2 l2 hb2 hl2 hnz2
      exact row_add_congr (hag b2 l2 hb2 hl2 hnz2)
        (hmha (layerNorm3 L.ln1 x) (layerNorm3 L.ln1 x2) hx1 hx21 hxln b2 l2 hb2 hl2 hnz2)
    exact row_add_congr (h1 b l hb hl hnz)
      (row_ff_congr L.ff (row_ln_congr L.ln2 (h1 b l hb hl hnz)))

lemma encFold_pad_congr (layers : List EncoderLayerP) (pm : NTensor2) :
    ∀ x x2 : Tensor3, x.d1 = pm.d1 → x2.d1 = pm.d1 →
    (∀ b l, b < pm.d0 → l < pm.d1 → pm.ent b l ≠ 0 → x.ent b l = x2.ent b l) →
    ∀ b l, b < pm.d0 → l < pm.d1 → pm.ent b l ≠ 0 →
    (layers.foldl (fun acc L => encLayerForward L acc (some (pad3 pm))) x).ent b l =
    (layers.foldl (fun acc L => encLayerForward L acc (some (pad3 pm))) x2).ent b l := by
  induction layers with
  | nil => intro x x2 _ _ hag b l hb hl hnz; exact hag b l hb hl hnz
  | cons L rest ih =>
    intro x x2 hx1 hx21 hag b l hb hl hnz
    simp only [List.foldl_cons]
    refine ih _ _ ?_ ?_ ?_ b l hb hl hnz
    · exact (encLayerForward_dims L x _).2.1.trans hx1
    · exact (encLayerForward_dims L x2 _).2.1.trans hx21
    · intro b2 l2 hb2 hl2 hnz2
      exact encLayer_pad_congr L x x2 pm hx1 hx21 hag b2 l2 hb2 hl2 hnz2

lemma encoderForward_pad_congr (enc : EncoderP) (x x2 : Tensor3) (pm : NTensor2)
    (hx1 : x.d1 = pm.d1) (hx21 : x2.d1 = pm.d1)
    (hag : ∀ b l, b < pm.d0 → l < pm.d1 → pm.ent b l ≠ 0 → x.ent b l = x2.ent b l)
    (b l : Nat) (hb : b < pm.d0) (hl : l < pm.d1) (hnz : pm.ent b l ≠ 0) :
    (encoderForward enc x (some (pad3 pm))).ent b l =
    (encoderForward enc x2 (some (pad3 pm))).ent b l := by
  unfold encoderForward
  have hfold := encFold_pad_congr enc.encoder_layers pm x x2 hx1 hx21 hag b l hb hl hnz
  rcases hfl : enc.final_ln with _ | ln
  · simp only [hfl]
    exact hfold
  · simp only [hfl]
    exact row_ln_congr ln hfold

lemma decLayer_mem_congr (L : DecoderLayerP) (x x2 mem mem2 : Tensor3)
    (cm : NTensor3) (pm : NTensor2) (b : Nat) (hb : b < pm.d0)
    (hxd : x2.d1 = x.d1) (hmem1 : mem.d1 = pm.d1) (hmem21 : mem2.d1 = pm.d1)
    (hx : ∀ l, x.ent b l = x2.ent b l)
    (hmem : ∀ j, j < pm.d1 → pm.ent b j ≠ 0 → mem.ent b j = mem2.ent b j) :
    ∀ l, (decLayerForward L x mem cm (some (pad3 pm))).ent b l =
      (decLayerForward L x2 mem2 cm (some (pad3 pm))).ent b l := by
  have hself : ∀ (y y2 : Tensor3), y2.d1 = y.d1 → (∀ l, y.ent b l = y2.ent b l) →
      ∀ l, (mhaForward L.mmha y y y (some cm)).ent b l =
        (mhaForward L.mmha y2 y2 y2 (some cm)).ent b l := by
    intro y y2 hyd hy l2
    exact mhaForward_congr L.mmha y y2 y y2 _ hyd b l2 (hy l2) fun j _ _ => hy j
  have hcross : ∀ (y y2 : Tensor3), (∀ l, y.ent b l = y2.ent b l) →
      ∀ l, (mhaForward L.mha y mem mem (some (pad3 pm))).ent b l =
        (mhaForward L.mha y2 mem2 mem2 (some (pad3 pm))).ent b l := by
    intro y y2 hy l2
    apply mhaForward_congr L.mha y y2 mem mem2 _ (by rw [hmem1, hmem21]) b l2 (hy l2)
    intro j hj hvis
    have hjp : j < pm.d1 := by rw [hmem1] at hj; exact hj
    exact hmem j hjp (pad_keyVisible pm b l2 j hb hjp hvis)
  intro l
  unfold decLayerForward
  by_cases hpl : L.post_ln = true
  · simp only [hpl, if_true, dropoutEval]
    have h1 : ∀ l2,
        (layerNorm3 L.ln1 (addT x (mhaForward L.mmha x x x (some cm)))).ent b l2 =
        (layerNorm3 L.ln1 (addT x2 (mhaForward L.mmha x2 x2 x2 (some cm)))).ent b l2 := by
      intro l2
      exact row_ln_congr L.ln1 (row_add_congr (hx l2) (hself x x2 hxd hx l2))
    have h2 : ∀ l2,
        (layerNorm3 L.ln2 (addT
          (layerNorm3 L.ln1 (addT x (mhaForward L.mmha x x x (some cm))))
          (mhaForward L.mha
            (layerNorm3 L.ln1 (addT x (mhaForward L.mmha x x x (some cm))))
            mem mem (some (pad3 pm))))).ent b l2 =
        (layerNorm3 L.ln2 (addT
          (layerNorm3 L.ln1 (addT x2 (mhaForward L.mmha x2 x2 x2 (some cm))))
          (mhaForward L.mha
            (layerNorm3 L.ln1 (addT x2 (mhaForward L.mmha x2 x2 x2 (some cm))))
            mem2 mem2 (some (pad3 pm))))).ent b l2 := by
      intro l2
      exact row_ln_congr L.ln2 (row_add_congr (h1 l2) (hcross _ _ h1 l2))
    exact row_ln_congr L.ln3 (row_add_congr (h2 l) (row_ff_congr L.ff (h2 l)))
  · simp only [hpl, if_false, dropoutEval]
    have hxln : ∀ l2, (layerNorm3 L.ln1 x).ent b l2 = (layerNorm3 L.ln1 x2).ent b l2 :=
      fun l2 => row_ln_congr L.ln1 (hx l2)
    have h1 : ∀ l2,
        (addT x (mhaForward L.mmha (layerNorm3 L.ln1 x) (layerNorm3 L.ln1 x)
          (layerNorm3 L.ln1 x) (some cm))).ent b l2 =
        (addT x2 (mhaForward L.mmha (layerNorm3 L.ln1 x2) (layerNorm3 L.ln1 x2)
          (layerNorm3 L.ln1 x2) (some cm))).ent b l2 := by
      intro l2
      exact row_add_congr (hx l2)
        (hself (layerNorm3 L.ln1 x) (layerNorm3 L.ln1 x2) hxd hxln l2)
    have h2 : ∀ l2,
        (addT (addT x (mhaForward L.mmha (layerNorm3 L.ln1 x) (layerNorm3 L.ln1 x)
            (layerNorm3 L.ln1 x) (some cm)))
          (mhaForward L.mha
            (layerNorm3 L.ln2 (addT x (mhaForward L.mmha (layerNorm3 L.ln1 x)
              (layerNorm3 L.ln1 x) (layerNorm3 L.ln1 x) (some cm))))
            mem mem (some (pad3 pm)))).ent b l2 =
        (addT (addT x2 (mhaForward L.mmha (layerNorm3 L.ln1 x2) (layerNorm3 L.ln1 x2)
            (layerNorm3 L.ln1 x2) (some cm)))
          (mhaForward L.mha
            (layerNorm3 L.ln2 (addT x2 (mhaForward L.mmha (layerNorm3 L.ln1 x2)
              (layerNorm3 L.ln1 x2) (layerNorm3 L.ln1 x2) (some cm))))
            mem2 mem2 (some (pad3 pm)))).ent b l2 := by
      intro l2
      exact row_add_congr (h1 l2) (hcross _ _ (fun l3 => row_ln_congr L.ln2 (h1 l3)) l2)
    exact row_add_congr (h2 l) (row_ff_congr L.ff (row_ln_congr L.ln3 (h2 l)))

lemma decFold_mem_congr (layers : List DecoderLayerP) (mem mem2 : Tensor3)
    (cm : NTensor3) (pm : NTensor2) (b : Nat) (hb : b < pm.d0)
    (hmem1 : mem.d1 = pm.d1) (hmem21 : mem2.d1 = pm.d1)
    (hmem : ∀ j, j < pm.d1 → pm.ent b j ≠ 0 → mem.ent b j = mem2.ent b j) :
    ∀ x x2 : Tensor3, x2.d1 = x.d1 → (∀ l, x.ent b l = x2.ent b l) →
    ∀ l, (layers.foldl (fun acc L => decLayerForward L acc mem cm (some (pad3 pm))) x).ent b l =
      (layers.foldl (fun acc L => decLayerForward L acc mem2 cm (some (pad3 pm))) x2).ent b l := by
  induction layers with
  | nil => intro x x2 _ hx l; exact hx l
  | cons L rest ih =>
    intro x x2 hxd hx l
    simp only [List.foldl_cons]
    refine ih _ _ ?_ ?_ l
    · exact ((decLayerForward_dims L x2 mem2 cm _).2.1.trans hxd).trans
        (decLayerForward_dims L x mem cm _).2.1.symm
    · exact decLayer_mem_congr L x x2 mem mem2 cm pm b hb hxd hmem1 hmem21 hx hmem

lemma decoderForward_mem_congr (dec : DecoderP) (x mem mem2 : Tensor3)
    (pm : NTensor2) (b : Nat) (hb : b < pm.d0)
    (hmem1 : mem.d1 = pm.d1) (hmem21 : mem2.d1 = pm.d1)
    (hmem : ∀ j, j < pm.d1 → pm.ent b j ≠ 0 → mem.ent b j = mem2.ent b j) :
    ∀ l, (decoderForward dec x mem (some (pad3 pm))).ent b l =
      (decoderForward dec x mem2 (some (pad3 pm))).ent b l := by
  intro l
  unfold decoderForward
  have hfold := decFold_mem_congr dec.decoder_layers mem mem2
    (unsqueeze0 (create_causal_mask x.d1)) pm b hb hmem1 hmem21 hmem x x rfl
    (fun _ => rfl) l
  rcases hfl : dec.final_ln with _ | ln
  · simp only [hfl]
    exact hfold
  · simp only [hfl]
    exact row_ln_congr ln hfold

/-- C4: with dropout disabled (evaluation-mode semantics), two source inputs
differing only at positions the `(B, Ls)` padding mask marks 0 yield identical
encoder memory at every non-masked source position and identical
`forward`/`decode` logits at every target position (for every in-range batch
row). -/
theorem c4_padding_mask_noninterference (m : Transformer) (src src2 pm : NTensor2)
    (hd0 : src2.d0 = src.d0) (hd1 : src2.d1 = src.d1)
    (hm0 : pm.d0 = src.d0) (hm1 : pm.d1 = src.d1)
    (hag : ∀ b l, b < pm.d0 → l < pm.d1 → pm.ent b l ≠ 0 →
      src.ent b l = src2.ent b l) :
    (∀ mem ms mem2 ms2, encode m src (some pm) = .ok (mem, ms) →
      encode m src2 (some pm) = .ok (mem2, ms2) →
      ∀ b l e, b < pm.d0 → l < pm.d1 → pm.ent b l ≠ 0 →
        mem.ent b l e = mem2.ent b l e) ∧
    (∀ tgt z z2, forward m src tgt (some pm) = .ok z →
      forward m src2 tgt (some pm) = .ok z2 →
      ∀ b, b < pm.d0 → ∀ l e, z.ent b l e = z2.ent b l e) := by
  have hmain : ∀ te te2, posAdd m.pos_enc (scaledEmbedding m src) = .ok te →
      posAdd m.pos_enc (scaledEmbedding m src2) = .ok te2 →
      (∀ b l, b < pm.d0 → l < pm.d1 → pm.ent b l ≠ 0 →
        (encoderForward m.encoder (dropoutEval te) (some (pad3 pm))).ent b l =
        (encoderForward m.encoder (dropoutEval te2) (some (pad3 pm))).ent b l) ∧
      (encoderForward m.encoder (dropoutEval te) (some (pad3 pm))).d1 = pm.d1 ∧
      (encoderForward m.encoder (dropoutEval te2) (some (pad3 pm))).d1 = pm.d1 := by
    intro te te2 hpa hpa2
    have hte1 : te.d1 = pm.d1 := by
      rw [(posAdd_dims _ _ _ hpa).2.1]
      show src.d1 = pm.d1
      rw [hm1]
    have hte21 : te2.d1 = pm.d1 := by
      rw [(posAdd_dims _ _ _ hpa2).2.1]
      show src2.d1 = pm.d1
      rw [hd1, hm1]
    have hrows : ∀ b l, b < pm.d0 → l < pm.d1 → pm.ent b l ≠ 0 →
        te.ent b l = te2.ent b l := by
      intro b l hb hl hnz
      refine posAdd_row_congr m.pos_enc _ _ _ _ ?_ hpa hpa2 b l ?_
      · show src2.d1 = src.d1
        exact hd1
      · rw [scaledEmbedding_row, scaledEmbedding_row, hag b l hb hl hnz]
    refine ⟨?_, ?_, ?_⟩
    · intro b l hb hl hnz
      exact encoderForward_pad_congr m.encoder (dropoutEval te) (dropoutEval te2)
        pm hte1 hte21 hrows b l hb hl hnz
    · exact (encoderForward_dims m.encoder (dropoutEval te) _).2.1.trans hte1
    · exact (encoderForward_dims m.encoder (dropoutEval te2) _).2.1.trans hte21
  constructor
  · intro mem ms mem2 ms2 h1 h2 b l e hb hl hnz
    obtain ⟨te, hpa, hpr⟩ := encode_ok m src (some pm) (mem, ms) h1
    obtain ⟨te2, hpa2, hpr2⟩ := encode_ok m src2 (some pm) (mem2, ms2) h2
    have hmem : mem = encoderForward m.encoder (dropoutEval te) (some (pad3 pm)) :=
      congrArg Prod.fst hpr
    have hmem2 : mem2 = encoderForward m.encoder (dropoutEval te2) (some (pad3 pm)) :=
      congrArg Prod.fst hpr2
    rw [hmem, hmem2]
    exact congrFun ((hmain te te2 hpa hpa2).1 b l hb hl hnz) e
  · intro tgt z z2 hz hz2 b hb l e
    unfold forward at hz hz2
    rcases henc : encode m src (some pm) with e1 | pr
    · rw [henc] at hz
      exact absurd hz (by simp)
    rcases henc2 : encode m src2 (some pm) with e2 | pr2
    · rw [henc2] at hz2
      exact absurd hz2 (by simp)
    rw [henc] at hz
    rw [henc2] at hz2
    rcases pr with ⟨mem, ms⟩
    rcases pr2 with ⟨mem2, ms2⟩
    obtain ⟨te, hpa, hpr⟩ := encode_ok m src (some pm) (mem, ms) henc
    obtain ⟨te2, hpa2, hpr2⟩ := encode_ok m src2 (some pm) (mem2, ms2) henc2
    have hmemeq : mem = encoderForward m.encoder (dropoutEval te) (some (pad3 pm)) :=
      congrArg Prod.fst hpr
    have hmem2eq : mem2 = encoderForward m.encoder (dropoutEval te2) (some (pad3 pm)) :=
      congrArg Prod.fst hpr2
    have hms : ms = some (pad3 pm) := congrArg Prod.snd hpr
    have hms2 : ms2 = some (pad3 pm) := congrArg Prod.snd hpr2
    rw [hms] at hz
    rw [hms2] at hz2
    obtain ⟨td, hpad, hzeq⟩ := decode_ok m mem tgt (some (pad3 pm)) z hz
    obtain ⟨td2, hpad2, hz2eq⟩ := decode_ok m mem2 tgt (some (pad3 pm)) z2 hz2
    have htd : td2 = td := by
      have := hpad.symm.trans hpad2
      exact (Except.ok.inj this).symm
    rw [htd] at hz2eq
    subst hzeq
    subst hz2eq
    obtain ⟨hmrows, hmd1, hmd21⟩ := hmain te te2 hpa hpa2
    have hdf := decoderForward_mem_congr m.decoder (dropoutEval td) mem mem2 pm b hb
      (by rw [hmemeq]; exact hmd1) (by rw [hmem2eq]; exact hmd21)
      (by
        intro j hj hnz
        rw [hmemeq, hmem2eq]
        exact hmrows b j hb hj hnz) l
    show (linear3 m.fc _).ent b l e = (linear3 m.fc _).ent b l e
    rw [linear3_row, linear3_row, hdf]

/-- A `(1, 2)` padding mask keeping position 0 and masking position 1. -/
def pmW : NTensor2 := ⟨1, 2, fun _ l => if l = 0 then 1 else 0⟩

/-- Two `(1, 2)` sources differing only at the masked position 1. -/
def srcA : NTensor2 := ⟨1, 2, fun _ _ => 0⟩

def srcB : NTensor2 := ⟨1, 2, fun _ l => if l = 0 then 0 else 1⟩

/-- C4 witness: the theorem applied to the constructed `c9Cfg` model with
sources differing only at the masked source position. -/
theorem c4_padding_mask_noninterference_witness :
    (∀ mem ms mem2 ms2, encode (buildBase c9Cfg) srcA (some pmW) = .ok (mem, ms) →
      encode (buildBase c9Cfg) srcB (some pmW) = .ok (mem2, ms2) →
      ∀ b l e, b < pmW.d0 → l < pmW.d1 → pmW.ent b l ≠ 0 →
        mem.ent b l e = mem2.ent b l e) ∧
    (∀ tgt z z2, forward (buildBase c9Cfg) srcA tgt (some pmW) = .ok z →
      forward (buildBase c9Cfg) srcB tgt (some pmW) = .ok z2 →
      ∀ b, b < pmW.d0 → ∀ l e, z.ent b l e = z2.ent b l e) :=
  c4_padding_mask_noninterference (buildBase c9Cfg) srcA srcB pmW rfl rfl rfl rfl
    (fun b l _ _ hnz => by
      rcases l with _ | l2
      · rfl
      · exact absurd rfl hnz)

end VT
